import Mathlib

set_option linter.unusedVariables false

/-!
Shallow embedding of the socket chat / music-room server (`src/stserver.js`,
the `rooms` / `musicRooms` section starting at the `io.on('connection')`
block).  Every socket handler becomes a pure function from the server state
and the event's arguments to the new server state paired with the list of
emitted events.  `Date.now()` instants and the generated message / track ids
(`Date.now() + '_' + random`) are passed in as explicit `Nat` parameters.
The per-socket closure variables `currentUser` / `currentRoom` /
`currentMusicRoom` are kept in a session table keyed by socket id, with `""`
standing for the initial empty string.
-/

/-- Association-list get, modelling `Map.prototype.get`. -/
def alGet {κ β : Type} [DecidableEq κ] : List (κ × β) → κ → Option β
  | [], _ => none
  | (k, v) :: t, k' => if k = k' then some v else alGet t k'

/-- Association-list set, modelling `Map.prototype.set`: replace in place
when the key is present, append otherwise. -/
def alSet {κ β : Type} [DecidableEq κ] : List (κ × β) → κ → β → List (κ × β)
  | [], k, v => [(k, v)]
  | (k', v') :: t, k, v => if k' = k then (k, v) :: t else (k', v') :: alSet t k v

/-- Association-list delete, used to model destruction of a socket's closure
state when the socket disconnects. -/
def alDel {κ β : Type} [DecidableEq κ] : List (κ × β) → κ → List (κ × β)
  | [], _ => []
  | (k', v') :: t, k => if k' = k then t else (k', v') :: alDel t k

/-- JS truthiness of an optional string (`undefined` and `""` are falsy). -/
def jsStr : Option String → Bool
  | none => false
  | some s => decide (s ≠ "")

/-- JS truthiness of an optional number (`undefined` and `0` are falsy). -/
def jsNum : Option Nat → Bool
  | none => false
  | some n => decide (n ≠ 0)

/-- `x || null` on an optional string (`create room` stores `password || null`). -/
def jsOrNullStr (o : Option String) : Option String := if jsStr o then o else none

/-- `x || null` on an optional number (`create room` stores `maxUsers || null`). -/
def jsOrNullNat (o : Option Nat) : Option Nat := if jsNum o then o else none

/-- `x || d` on an optional number (`create music room` stores `maxUsers || 10`). -/
def jsOrNat (o : Option Nat) (d : Nat) : Nat := if jsNum o then o.getD d else d

/-- `x || d` on an optional string. -/
def jsOrStr (o : Option String) (d : String) : String := if jsStr o then o.getD d else d

/-- `Set.prototype.add`: JS sets keep insertion order and ignore duplicates. -/
def setAdd (l : List Nat) (a : Nat) : List Nat := if a ∈ l then l else l ++ [a]

/-- `Set.prototype.delete`: removes the stored occurrence, if any. -/
def setDel (l : List Nat) (a : Nat) : List Nat := l.erase a

/-- The `fileData` attachment carried by a chat message (produced by the
upload route; the core treats it as opaque). -/
structure FileData where
  filename : String
  originalname : String
  url : String
deriving DecidableEq

/-- A stored chat message (`messageData` in the `chat message` handler).
The id `Date.now() + '_' + random` is abstracted to a `Nat`; the ISO
timestamp to a `Nat` instant. -/
structure ChatMessage where
  id : Nat
  username : String
  message : String
  fileData : Option FileData
  timestamp : Nat
  isPrevious : Bool
deriving DecidableEq

/-- A chat room as stored in the `rooms` map by `create room`. -/
structure ChatRoom where
  name : String
  users : List Nat
  messages : List ChatMessage
  maxUsers : Option Nat
  password : Option String
  creator : String
  createdAt : Nat
deriving DecidableEq

/-- A playlist entry (`trackData` in the `music uploaded` handler). -/
structure MusicTrack where
  id : Nat
  title : String
  filename : String
  originalname : String
  url : String
  uploader : String
  uploadTime : Nat
  duration : String
  votes : Nat
  voters : List Nat
deriving DecidableEq

/-- A music-room chat entry; covers both ordinary messages and the synthetic
`SYSTEM` message injected by `music uploaded` (`isSystem` stands for the
`type: 'system'` tag). -/
structure MusicMessage where
  id : Nat
  isSystem : Bool
  roomId : String
  user : String
  message : String
  timestamp : Nat
  isPrevious : Bool
deriving DecidableEq

/-- A music room as stored in the `musicRooms` map by `create music room`.
The `votes: new Map()` field is never read or written by any handler and is
omitted. -/
structure MusicRoom where
  id : String
  name : String
  description : String
  users : List Nat
  maxUsers : Nat
  creator : String
  genres : List String
  playlist : List MusicTrack
  currentTrack : Option MusicTrack
  currentTrackIndex : Nat
  isPlaying : Bool
  playStartTime : Option Nat
  messages : List MusicMessage
  createdAt : Nat
deriving DecidableEq

/-- The per-socket closure variables of the connection handler, initialised
to empty strings. -/
structure Session where
  currentUser : String
  currentRoom : String
  currentMusicRoom : String
deriving DecidableEq

def freshSession : Session := ⟨"", "", ""⟩

/-- The whole in-memory server state: the two room maps plus the per-socket
sessions. -/
structure ServerState where
  rooms : List (String × ChatRoom)
  musicRooms : List (String × MusicRoom)
  sessions : List (Nat × Session)
deriving DecidableEq

def initState : ServerState := ⟨[], [], []⟩

def getSession (s : ServerState) (sid : Nat) : Session :=
  (alGet s.sessions sid).getD freshSession

/-- The structured rejections emitted as `room join error` /
`music room join error`. -/
inductive JoinErr
  | roomNotFound
  | wrongPassword
  | roomFull
  | roomAlreadyExists
deriving DecidableEq

/-- The structured rejections emitted as `delete error`. -/
inductive DelErr
  | notAuthorized
  | messageNotFound
  | notAuthor
deriving DecidableEq

/-- One emitted socket event.  A `sid` argument means a private
`socket.emit` to that socket; an `exceptSid` argument together with a room
name means `socket.to(room).emit` (all occupants of the socket.io channel
except the sender); a bare room name means `io.to(room).emit` (everyone in
the channel, sender included). -/
inductive OutEvent
  | testMessage (sid : Nat)
  | roomCreated (sid : Nat) (roomName : String) (maxUsers : Option Nat) (hasPassword : Bool)
  | roomJoinError (sid : Nat) (err : JoinErr)
  | roomJoinSuccess (sid : Nat) (roomName : String) (userCount : Nat) (maxUsers : Option Nat)
  | userJoinedRoom (roomName : String) (exceptSid : Nat) (username : String) (userCount : Nat)
  | userLeftRoom (roomName : String) (exceptSid : Nat) (username : String) (userCount : Nat)
  | roomUserCount (sid : Nat) (userCount : Nat) (maxUsers : Option Nat)
  | chatMessageReplay (sid : Nat) (m : ChatMessage)
  | chatMessageLive (roomName : String) (m : ChatMessage)
  | deleteError (sid : Nat) (err : DelErr)
  | messageDeleted (roomName : String) (messageId : Nat)
  | deleteSuccess (sid : Nat) (messageId : Nat)
  | musicRoomCreated (sid : Nat) (roomId : String)
  | musicRoomListTo (sid : Nat)
  | musicRoomListUpdate (exceptSid : Nat)
  | musicRoomJoinError (sid : Nat) (err : JoinErr)
  | musicRoomJoinSuccess (sid : Nat) (roomId : String) (userCount : Nat)
      (playlist : List MusicTrack) (currentTrack : Option MusicTrack) (isPlaying : Bool)
  | musicRoomUserJoined (roomId : String) (exceptSid : Nat) (username : String) (userCount : Nat)
  | musicRoomUserLeft (roomId : String) (exceptSid : Nat) (username : String) (userCount : Nat)
  | musicChatReplay (sid : Nat) (m : MusicMessage)
  | musicChatLive (roomId : String) (m : MusicMessage)
  | playlistUpdate (roomId : String) (playlist : List MusicTrack)
      (currentTrack : Option MusicTrack) (isPlaying : Bool)
  | trackChanged (roomId : String) (t : MusicTrack) (playStartTime : Nat)
  | playbackToggled (roomId : String) (isPlaying : Bool) (playStartTime : Option Nat)
deriving DecidableEq

/-- `socket.on('user join')`: record the display name, send the test
message. -/
def userJoinH (s : ServerState) (sid : Nat) (username : String) :
    ServerState × List OutEvent :=
  let sess := getSession s sid
  ({ s with sessions := alSet s.sessions sid { sess with currentUser := username } },
   [.testMessage sid])

/-- `socket.on('create room')`. -/
def createRoomH (s : ServerState) (sid : Nat) (roomName : String)
    (maxUsers : Option Nat) (password : Option String) (now : Nat) :
    ServerState × List OutEvent :=
  match alGet s.rooms roomName with
  | none =>
    let room : ChatRoom :=
      { name := roomName, users := [], messages := [],
        maxUsers := jsOrNullNat maxUsers, password := jsOrNullStr password,
        creator := (getSession s sid).currentUser, createdAt := now }
    ({ s with rooms := alSet s.rooms roomName room },
     [.roomCreated sid roomName maxUsers (jsStr password)])
  | some _ => (s, [.roomJoinError sid .roomAlreadyExists])

/-- The password guard of `join room`:
`room.password && room.creator !== currentUser && (!password || password !== room.password)`. -/
def pwRejected (room : ChatRoom) (curUser : String) (pw : Option String) : Bool :=
  jsStr room.password && decide (room.creator ≠ curUser) &&
    (!jsStr pw || decide (pw ≠ room.password))

/-- The capacity guard of `join room`:
`room.maxUsers && room.users.size >= room.maxUsers`. -/
def fullRejected (room : ChatRoom) : Bool :=
  jsNum room.maxUsers && decide (room.maxUsers.getD 0 ≤ room.users.length)

/-- The `if (currentRoom) { ... }` block of `join room`: leave the previous
chat room, broadcasting `user left room` to it, when the session holds one
and that room still exists. -/
def leavePrev (s : ServerState) (sid : Nat) (sess : Session) :
    ServerState × List OutEvent :=
  if sess.currentRoom ≠ "" then
    match alGet s.rooms sess.currentRoom with
    | some prev =>
      let prev' := { prev with users := setDel prev.users sid }
      ({ s with rooms := alSet s.rooms sess.currentRoom prev' },
       [OutEvent.userLeftRoom sess.currentRoom sid sess.currentUser prev'.users.length])
    | none => (s, ([] : List OutEvent))
  else (s, ([] : List OutEvent))

/-- `socket.on('join room')`.  On success the previous chat room, when the
session holds one, is left first (with a `user left room` broadcast to it);
the target room is re-read afterwards because in the source `room` and
`prevRoom` may alias the same object. -/
def joinRoomH (s : ServerState) (sid : Nat) (roomName : String)
    (password : Option String) : ServerState × List OutEvent :=
  let sess := getSession s sid
  match alGet s.rooms roomName with
  | none => (s, [.roomJoinError sid .roomNotFound])
  | some room =>
    if pwRejected room sess.currentUser password then
      (s, [.roomJoinError sid .wrongPassword])
    else if fullRejected room then
      (s, [.roomJoinError sid .roomFull])
    else
      let lv := leavePrev s sid sess
      match alGet lv.1.rooms roomName with
      | some room1 =>
        let room2 := { room1 with users := setAdd room1.users sid }
        ({ lv.1 with
            rooms := alSet lv.1.rooms roomName room2,
            sessions := alSet lv.1.sessions sid { sess with currentRoom := roomName } },
         lv.2 ++
           [OutEvent.roomJoinSuccess sid roomName room2.users.length room2.maxUsers,
            OutEvent.userJoinedRoom roomName sid sess.currentUser room2.users.length,
            OutEvent.roomUserCount sid room2.users.length room2.maxUsers] ++
           room2.messages.map (fun m => OutEvent.chatMessageReplay sid { m with isPrevious := true }))
      | none => (lv.1, lv.2)

/-- `socket.on('leave room')`.  Note that `currentRoom = ''` happens
unconditionally, outside the occupancy check. -/
def leaveRoomH (s : ServerState) (sid : Nat) (roomName : String) :
    ServerState × List OutEvent :=
  let sess := getSession s sid
  let lv :=
    match alGet s.rooms roomName with
    | some room =>
      if sid ∈ room.users then
        let room' := { room with users := setDel room.users sid }
        ({ s with rooms := alSet s.rooms roomName room' },
         [OutEvent.userLeftRoom roomName sid sess.currentUser room'.users.length])
      else (s, ([] : List OutEvent))
    | none => (s, ([] : List OutEvent))
  ({ lv.1 with sessions := alSet lv.1.sessions sid { sess with currentRoom := "" } }, lv.2)

/-- The history append of `chat message`: push, then
`if (messages.length > 100) messages = messages.slice(-100)`. -/
def pushTrim (h : List ChatMessage) (m : ChatMessage) : List ChatMessage :=
  if (h ++ [m]).length > 100 then (h ++ [m]).drop ((h ++ [m]).length - 100)
  else h ++ [m]

/-- `socket.on('chat message')`: silently dropped unless the sender is a
current occupant of an existing room. -/
def chatMessageH (s : ServerState) (sid : Nat) (roomName : String)
    (message : String) (fileData : Option FileData) (now fresh : Nat) :
    ServerState × List OutEvent :=
  match alGet s.rooms roomName with
  | some room =>
    if sid ∈ room.users then
      let m : ChatMessage :=
        { id := fresh, username := (getSession s sid).currentUser,
          message := message, fileData := fileData, timestamp := now,
          isPrevious := false }
      let room' := { room with messages := pushTrim room.messages m }
      ({ s with rooms := alSet s.rooms roomName room' },
       [OutEvent.chatMessageLive roomName m])
    else (s, ([] : List OutEvent))
  | none => (s, ([] : List OutEvent))

/-- `socket.on('delete message')`.  The source uses
`findIndex` / `messages[i]` / `splice(i, 1)`, rendered here as `find?` (the
element at the first matching index) and `eraseP` (removal of the first
match).  The best-effort `fs.unlink` of an attached file is an external
side effect outside the room state. -/
def deleteMessageH (s : ServerState) (sid : Nat) (roomName : String)
    (messageId : Nat) : ServerState × List OutEvent :=
  match alGet s.rooms roomName with
  | none => (s, [.deleteError sid .notAuthorized])
  | some room =>
    if sid ∈ room.users then
      match room.messages.find? (fun m => m.id == messageId) with
      | none => (s, [.deleteError sid .messageNotFound])
      | some m =>
        if m.username ≠ (getSession s sid).currentUser then
          (s, [.deleteError sid .notAuthor])
        else
          let room' :=
            { room with messages := room.messages.eraseP (fun x => x.id == messageId) }
          ({ s with rooms := alSet s.rooms roomName room' },
           [OutEvent.messageDeleted roomName messageId,
            OutEvent.deleteSuccess sid messageId])
    else (s, [.deleteError sid .notAuthorized])

/-- The descriptor posted by `music uploaded` (built from the upload
route's response). -/
structure MusicUpload where
  filename : String
  originalname : String
  url : String
deriving DecidableEq

/-- `originalname.replace(/\.[^/.]+$/, "")`: strip a final extension made of
one or more characters other than `.` and `/` after a dot. -/
def stripExt (name : String) : String :=
  let r := name.toList.reverse
  let ext := r.takeWhile (fun c => !(c == '.') && !(c == '/'))
  match r.drop ext.length with
  | '.' :: rest => if ext.isEmpty then name else String.mk rest.reverse
  | _ => name

/-- `socket.on('create music room')`.  The generated id
`name.toLowerCase().replace(/\s+/g, '-') + '-' + Date.now()` is abstracted
to `roomName ++ "-" ++ toString now`; only its dependence on the name and
the creation instant matters to the model. -/
def createMusicRoomH (s : ServerState) (sid : Nat) (roomName : String)
    (description : Option String) (maxUsers : Option Nat)
    (genres : Option (List String)) (now : Nat) : ServerState × List OutEvent :=
  let sess := getSession s sid
  let roomId := roomName ++ "-" ++ toString now
  match alGet s.musicRooms roomId with
  | none =>
    let room : MusicRoom :=
      { id := roomId, name := roomName,
        description := jsOrStr description "Collaborative music workspace",
        users := [], maxUsers := jsOrNat maxUsers 10, creator := sess.currentUser,
        genres := genres.getD ["Electronic", "Hip-Hop", "Rock"],
        playlist := [], currentTrack := none, currentTrackIndex := 0,
        isPlaying := false, playStartTime := none, messages := [],
        createdAt := now }
    ({ s with musicRooms := alSet s.musicRooms roomId room },
     [.musicRoomCreated sid roomId, .musicRoomListTo sid, .musicRoomListUpdate sid])
  | some _ => (s, [.musicRoomJoinError sid .roomAlreadyExists])

/-- The capacity guard of `join music room`:
`room.users.size >= room.maxUsers` (no truthiness guard here). -/
def musicFullRejected (room : MusicRoom) : Bool :=
  decide (room.maxUsers ≤ room.users.length)

/-- The `if (currentMusicRoom) { ... }` block of `join music room`. -/
def leaveMusicPrev (s : ServerState) (sid : Nat) (sess : Session) :
    ServerState × List OutEvent :=
  if sess.currentMusicRoom ≠ "" then
    match alGet s.musicRooms sess.currentMusicRoom with
    | some prev =>
      let prev' := { prev with users := setDel prev.users sid }
      ({ s with musicRooms := alSet s.musicRooms sess.currentMusicRoom prev' },
       [OutEvent.musicRoomUserLeft sess.currentMusicRoom sid sess.currentUser
          prev'.users.length])
    | none => (s, ([] : List OutEvent))
  else (s, ([] : List OutEvent))

/-- `socket.on('join music room')`. -/
def joinMusicRoomH (s : ServerState) (sid : Nat) (roomId : String) :
    ServerState × List OutEvent :=
  let sess := getSession s sid
  match alGet s.musicRooms roomId with
  | none => (s, [.musicRoomJoinError sid .roomNotFound])
  | some room =>
    if musicFullRejected room then
      (s, [.musicRoomJoinError sid .roomFull])
    else
      let lv := leaveMusicPrev s sid sess
      match alGet lv.1.musicRooms roomId with
      | some room1 =>
        let room2 := { room1 with users := setAdd room1.users sid }
        ({ lv.1 with
            musicRooms := alSet lv.1.musicRooms roomId room2,
            sessions := alSet lv.1.sessions sid { sess with currentMusicRoom := roomId } },
         lv.2 ++
           [OutEvent.musicRoomJoinSuccess sid roomId room2.users.length
              room2.playlist room2.currentTrack room2.isPlaying,
            OutEvent.musicRoomUserJoined roomId sid sess.currentUser room2.users.length] ++
           room2.messages.map (fun m => OutEvent.musicChatReplay sid { m with isPrevious := true }))
      | none => (lv.1, lv.2)

/-- `socket.on('leave music room')`: like `leave room`,
`currentMusicRoom = ''` happens unconditionally. -/
def leaveMusicRoomH (s : ServerState) (sid : Nat) (roomId : String) :
    ServerState × List OutEvent :=
  let sess := getSession s sid
  let lv :=
    match alGet s.musicRooms roomId with
    | some room =>
      if sid ∈ room.users then
        let room' := { room with users := setDel room.users sid }
        ({ s with musicRooms := alSet s.musicRooms roomId room' },
         [OutEvent.musicRoomUserLeft roomId sid sess.currentUser room'.users.length])
      else (s, ([] : List OutEvent))
    | none => (s, ([] : List OutEvent))
  ({ lv.1 with sessions := alSet lv.1.sessions sid { sess with currentMusicRoom := "" } },
   lv.2)

/-- `socket.on('music uploaded')`: occupancy-gated playlist append plus a
synthetic `SYSTEM` chat message (note: no 100-entry trim on this path). -/
def musicUploadedH (s : ServerState) (sid : Nat) (roomId : String)
    (musicData : MusicUpload) (now fresh : Nat) : ServerState × List OutEvent :=
  match alGet s.musicRooms roomId with
  | some room =>
    if sid ∈ room.users then
      let sess := getSession s sid
      let track : MusicTrack :=
        { id := fresh, title := stripExt musicData.originalname,
          filename := musicData.filename, originalname := musicData.originalname,
          url := musicData.url, uploader := sess.currentUser, uploadTime := now,
          duration := "0:00", votes := 0, voters := [] }
      let sysMsg : MusicMessage :=
        { id := now, isSystem := true, roomId := roomId, user := "SYSTEM",
          message := sess.currentUser ++ " uploaded \"" ++ track.title ++ "\"",
          timestamp := now, isPrevious := false }
      let room' :=
        { room with
          playlist := room.playlist ++ [track],
          messages := room.messages ++ [sysMsg] }
      ({ s with musicRooms := alSet s.musicRooms roomId room' },
       [OutEvent.playlistUpdate roomId room'.playlist room.currentTrack room.isPlaying,
        OutEvent.musicChatLive roomId sysMsg])
    else (s, ([] : List OutEvent))
  | none => (s, ([] : List OutEvent))

/-- `socket.on('play track')`: silent no-op unless the requester occupies
the room and the track id is in the playlist. -/
def playTrackH (s : ServerState) (sid : Nat) (roomId : String) (trackId : Nat)
    (now : Nat) : ServerState × List OutEvent :=
  match alGet s.musicRooms roomId with
  | some room =>
    if sid ∈ room.users then
      match room.playlist.find? (fun t => t.id == trackId) with
      | some track =>
        let room' :=
          { room with
            currentTrack := some track,
            isPlaying := true,
            playStartTime := some now }
        ({ s with musicRooms := alSet s.musicRooms roomId room' },
         [OutEvent.trackChanged roomId track now])
      | none => (s, ([] : List OutEvent))
    else (s, ([] : List OutEvent))
  | none => (s, ([] : List OutEvent))

/-- `socket.on('toggle playback')`: flip `isPlaying`; re-stamp
`playStartTime = Date.now()` only when the flip is to playing. -/
def togglePlaybackH (s : ServerState) (sid : Nat) (roomId : String) (now : Nat) :
    ServerState × List OutEvent :=
  match alGet s.musicRooms roomId with
  | some room =>
    if sid ∈ room.users then
      let playing := !room.isPlaying
      let room' :=
        { room with
          isPlaying := playing,
          playStartTime := if playing then some now else room.playStartTime }
      ({ s with musicRooms := alSet s.musicRooms roomId room' },
       [OutEvent.playbackToggled roomId playing room'.playStartTime])
    else (s, ([] : List OutEvent))
  | none => (s, ([] : List OutEvent))

/-- `io.on('connection')`: fresh closure state for the socket. -/
def connectH (s : ServerState) (sid : Nat) : ServerState × List OutEvent :=
  ({ s with sessions := alSet s.sessions sid freshSession }, [])

/-- `socket.on('disconnect')`: evict from the current chat room and the
current music room, as recorded in the closure variables, then drop the
closure state. -/
def disconnectH (s : ServerState) (sid : Nat) : ServerState × List OutEvent :=
  let sess := getSession s sid
  let st1 := leavePrev s sid sess
  let st2 := leaveMusicPrev st1.1 sid sess
  ({ st2.1 with sessions := alDel st2.1.sessions sid }, st1.2 ++ st2.2)

/-- The inbound event surface of the server. -/
inductive Event
  | connect (sid : Nat)
  | userJoin (sid : Nat) (username : String)
  | createRoom (sid : Nat) (roomName : String) (maxUsers : Option Nat)
      (password : Option String) (now : Nat)
  | joinRoom (sid : Nat) (roomName : String) (password : Option String)
  | leaveRoom (sid : Nat) (roomName : String)
  | chatMessage (sid : Nat) (roomName : String) (message : String)
      (fileData : Option FileData) (now fresh : Nat)
  | deleteMessage (sid : Nat) (roomName : String) (messageId : Nat)
  | createMusicRoom (sid : Nat) (roomName : String) (description : Option String)
      (maxUsers : Option Nat) (genres : Option (List String)) (now : Nat)
  | joinMusicRoom (sid : Nat) (roomId : String)
  | leaveMusicRoom (sid : Nat) (roomId : String)
  | musicUploaded (sid : Nat) (roomId : String) (musicData : MusicUpload) (now fresh : Nat)
  | playTrack (sid : Nat) (roomId : String) (trackId : Nat) (now : Nat)
  | togglePlayback (sid : Nat) (roomId : String) (now : Nat)
  | disconnect (sid : Nat)
deriving DecidableEq

/-- One event dispatched through the handler table. -/
def step (s : ServerState) : Event → ServerState × List OutEvent
  | .connect sid => connectH s sid
  | .userJoin sid u => userJoinH s sid u
  | .createRoom sid n mu pw now => createRoomH s sid n mu pw now
  | .joinRoom sid n pw => joinRoomH s sid n pw
  | .leaveRoom sid n => leaveRoomH s sid n
  | .chatMessage sid n msg fd now fresh => chatMessageH s sid n msg fd now fresh
  | .deleteMessage sid n mid => deleteMessageH s sid n mid
  | .createMusicRoom sid n d mu g now => createMusicRoomH s sid n d mu g now
  | .joinMusicRoom sid rid => joinMusicRoomH s sid rid
  | .leaveMusicRoom sid rid => leaveMusicRoomH s sid rid
  | .musicUploaded sid rid md now fresh => musicUploadedH s sid rid md now fresh
  | .playTrack sid rid tid now => playTrackH s sid rid tid now
  | .togglePlayback sid rid now => togglePlaybackH s sid rid now
  | .disconnect sid => disconnectH s sid

/-- Run a sequence of events, discarding outputs. -/
def run (s : ServerState) : List Event → ServerState
  | [] => s
  | e :: t => run (step s e).1 t

/-! ### Association-list and set lemmas -/

theorem alGet_alSet_self {κ β : Type} [DecidableEq κ] (l : List (κ × β)) (k : κ) (v : β) :
    alGet (alSet l k v) k = some v := by
  induction l with
  | nil => simp [alGet, alSet]
  | cons q t ih =>
    obtain ⟨k', v'⟩ := q
    by_cases hk : k' = k
    · subst hk
      simp [alGet, alSet]
    · simp [alGet, alSet, hk, ih]

theorem alGet_alSet_ne {κ β : Type} [DecidableEq κ] (l : List (κ × β)) (k k' : κ) (v : β)
    (h : k ≠ k') : alGet (alSet l k v) k' = alGet l k' := by
  induction l with
  | nil => simp [alGet, alSet, h]
  | cons q t ih =>
    obtain ⟨k0, v0⟩ := q
    by_cases hk : k0 = k
    · subst hk
      simp [alGet, alSet, h]
    · simp only [alSet, if_neg hk, alGet]
      by_cases h0 : k0 = k'
      · simp [h0]
      · simp [h0, ih]

theorem mem_alSet {κ β : Type} [DecidableEq κ] {l : List (κ × β)} {k : κ} {v : β} {q : κ × β}
    (hq : q ∈ alSet l k v) : q = (k, v) ∨ q ∈ l := by
  induction l with
  | nil =>
    simp only [alSet, List.mem_singleton] at hq
    exact Or.inl hq
  | cons p t ih =>
    obtain ⟨k0, v0⟩ := p
    simp only [alSet] at hq
    split at hq
    · rcases List.mem_cons.mp hq with h1 | h1
      · exact Or.inl h1
      · exact Or.inr (List.mem_cons_of_mem _ h1)
    · rcases List.mem_cons.mp hq with h1 | h1
      · exact Or.inr (h1 ▸ List.mem_cons_self _ _)
      · rcases ih h1 with h2 | h2
        · exact Or.inl h2
        · exact Or.inr (List.mem_cons_of_mem _ h2)

theorem alGet_mem {κ β : Type} [DecidableEq κ] {l : List (κ × β)} {k : κ} {v : β}
    (h : alGet l k = some v) : (k, v) ∈ l := by
  induction l with
  | nil => simp [alGet] at h
  | cons p t ih =>
    obtain ⟨k0, v0⟩ := p
    simp only [alGet] at h
    split at h
    · next heq =>
      injection h with hv
      subst hv
      subst heq
      exact List.mem_cons_self _ _
    · exact List.mem_cons_of_mem _ (ih h)

theorem length_setAdd_le (l : List Nat) (a : Nat) : (setAdd l a).length ≤ l.length + 1 := by
  unfold setAdd
  split
  · omega
  · simp

theorem mem_setAdd_self (l : List Nat) (a : Nat) : a ∈ setAdd l a := by
  unfold setAdd
  split
  · assumption
  · simp

theorem length_setDel_le (l : List Nat) (a : Nat) : (setDel l a).length ≤ l.length :=
  (List.erase_sublist a l).length_le

theorem jsOrNullStr_ne_empty (o : Option String) : jsOrNullStr o ≠ some "" := by
  unfold jsOrNullStr jsStr
  cases o with
  | none => simp
  | some s =>
    by_cases h : s = ""
    · simp [h]
    · simp [h]

theorem jsOrNullNat_ne_zero (o : Option Nat) : jsOrNullNat o ≠ some 0 := by
  unfold jsOrNullNat jsNum
  cases o with
  | none => simp
  | some n =>
    by_cases h : n = 0
    · simp [h]
    · simp [h]

theorem getSession_congr {s1 s2 : ServerState} (h : s1.sessions = s2.sessions) (sid : Nat) :
    getSession s1 sid = getSession s2 sid := by
  simp [getSession, h]

/-! ### History-trim lemmas -/

theorem pushTrim_eq_rtake (h : List ChatMessage) (m : ChatMessage) :
    pushTrim h m = (h ++ [m]).rtake 100 := by
  simp only [pushTrim, List.rtake]
  split
  · rfl
  · next hle =>
    have h0 : (h ++ [m]).length - 100 = 0 := by omega
    rw [h0, List.drop_zero]

theorem length_pushTrim_le (h : List ChatMessage) (m : ChatMessage) :
    (pushTrim h m).length ≤ 100 := by
  simp only [pushTrim]
  split
  · next hgt =>
    simp only [List.length_drop]
    omega
  · next hle =>
    omega

theorem take_append_take {α : Type} (n : Nat) (C D : List α) :
    (C ++ D.take n).take n = (C ++ D).take n := by
  rw [List.take_append_eq_append_take, List.take_append_eq_append_take, List.take_take]
  rw [Nat.min_eq_left (Nat.sub_le _ _)]

theorem rtake_append_rtake {α : Type} (n : Nat) (A B : List α) :
    (A.rtake n ++ B).rtake n = (A ++ B).rtake n := by
  simp only [List.rtake_eq_reverse_take_reverse, List.reverse_append, List.reverse_reverse]
  rw [take_append_take]

theorem foldl_pushTrim_rtake (ms : List ChatMessage) : ∀ h : List ChatMessage,
    h.length ≤ 100 → List.foldl pushTrim h ms = (h ++ ms).rtake 100 := by
  induction ms with
  | nil =>
    intro h hh
    simp only [List.foldl_nil, List.append_nil, List.rtake]
    have h0 : h.length - 100 = 0 := by omega
    rw [h0, List.drop_zero]
  | cons m t ih =>
    intro h hh
    simp only [List.foldl_cons]
    rw [ih (pushTrim h m) (length_pushTrim_le h m), pushTrim_eq_rtake,
      rtake_append_rtake]
    congr 1
    simp

/-! ### Capacity invariant -/

/-- Field well-formedness (as produced by `create room`'s `|| null`
normalisations) plus the capacity bound, for one chat room. -/
def roomCapOK (r : ChatRoom) : Prop :=
  r.password ≠ some "" ∧ r.maxUsers ≠ some 0 ∧
    ∀ m, r.maxUsers = some m → r.users.length ≤ m

/-- The capacity bound for one music room. -/
def musicCapOK (r : MusicRoom) : Prop := r.users.length ≤ r.maxUsers

/-- Every stored room satisfies its capacity bound. -/
def capInv (s : ServerState) : Prop :=
  (∀ q ∈ s.rooms, roomCapOK q.2) ∧ (∀ q ∈ s.musicRooms, musicCapOK q.2)

/-- Executable mirror of `roomCapOK`. -/
def roomCapOKb (r : ChatRoom) : Bool :=
  decide (r.password ≠ some "") &&
    (match r.maxUsers with
     | none => true
     | some m => decide (m ≠ 0) && decide (r.users.length ≤ m))

/-- Executable mirror of `capInv`. -/
def capInvB (s : ServerState) : Bool :=
  s.rooms.all (fun q => roomCapOKb q.2) &&
    s.musicRooms.all (fun q => decide (q.2.users.length ≤ q.2.maxUsers))

theorem roomCapOKb_iff (r : ChatRoom) : roomCapOKb r = true ↔ roomCapOK r := by
  unfold roomCapOKb roomCapOK
  cases hm : r.maxUsers with
  | none => simp [hm]
  | some m =>
    simp only [hm, Bool.and_eq_true, decide_eq_true_eq]
    constructor
    · rintro ⟨h1, h2, h3⟩
      refine ⟨h1, ?_, ?_⟩
      · intro h0
        injection h0 with h0
        exact h2 h0
      · intro m' hm'
        injection hm' with hm'
        exact hm' ▸ h3
    · rintro ⟨h1, h2, h3⟩
      refine ⟨h1, ?_, h3 m rfl⟩
      intro h0
      exact h2 (by rw [h0])

theorem capInvB_iff (s : ServerState) : capInvB s = true ↔ capInv s := by
  unfold capInvB capInv
  simp only [Bool.and_eq_true, List.all_eq_true, decide_eq_true_eq]
  constructor
  · rintro ⟨h1, h2⟩
    exact ⟨fun q hq => (roomCapOKb_iff q.2).mp (h1 q hq), h2⟩
  · rintro ⟨h1, h2⟩
    exact ⟨fun q hq => (roomCapOKb_iff q.2).mpr (h1 q hq), h2⟩

theorem capInv_of_parts {s s' : ServerState} (hr : s'.rooms = s.rooms)
    (hm : s'.musicRooms = s.musicRooms) (h : capInv s) : capInv s' := by
  constructor
  · intro q hq
    exact h.1 q (hr ▸ hq)
  · intro q hq
    exact h.2 q (hm ▸ hq)

theorem roomsOK_alSet {rs : List (String × ChatRoom)} {k : String} {r : ChatRoom}
    (h : ∀ q ∈ rs, roomCapOK q.2) (hr : roomCapOK r) :
    ∀ q ∈ alSet rs k r, roomCapOK q.2 := by
  intro q hq
  rcases mem_alSet hq with rfl | hq
  · exact hr
  · exact h q hq

theorem musicOK_alSet {rs : List (String × MusicRoom)} {k : String} {r : MusicRoom}
    (h : ∀ q ∈ rs, musicCapOK q.2) (hr : musicCapOK r) :
    ∀ q ∈ alSet rs k r, musicCapOK q.2 := by
  intro q hq
  rcases mem_alSet hq with rfl | hq
  · exact hr
  · exact h q hq

theorem roomCapOK_users {r : ChatRoom} (h : roomCapOK r) {us : List Nat}
    (hlen : us.length ≤ r.users.length) : roomCapOK { r with users := us } := by
  refine ⟨h.1, h.2.1, ?_⟩
  intro m hm
  exact le_trans hlen (h.2.2 m hm)

theorem roomCapOK_messages {r : ChatRoom} (h : roomCapOK r) (ms : List ChatMessage) :
    roomCapOK { r with messages := ms } :=
  ⟨h.1, h.2.1, h.2.2⟩

theorem fullRejected_false_lt {r : ChatRoom} {m : Nat}
    (hfull : fullRejected r = false) (hm : r.maxUsers = some m) (hmne : m ≠ 0) :
    r.users.length < m := by
  have he : fullRejected r = (decide (m ≠ 0) && decide (m ≤ r.users.length)) := by
    simp [fullRejected, jsNum, hm]
  rw [he] at hfull
  simp only [Bool.and_eq_false_iff, decide_eq_false_iff_not, Decidable.not_not] at hfull
  rcases hfull with h0 | h0
  · exact absurd h0 (by simpa using hmne)
  · omega

theorem roomCapOK_addUser {r : ChatRoom} (h : roomCapOK r)
    (hfull : fullRejected r = false) (sid : Nat) :
    roomCapOK { r with users := setAdd r.users sid } := by
  refine ⟨h.1, h.2.1, ?_⟩
  intro m hm
  have hmne : m ≠ 0 := fun h0 => h.2.1 (h0 ▸ hm)
  have hlt := fullRejected_false_lt hfull hm hmne
  have hle := length_setAdd_le r.users sid
  show (setAdd r.users sid).length ≤ m
  omega

theorem musicCapOK_users {r : MusicRoom} (h : musicCapOK r) {us : List Nat}
    (hlen : us.length ≤ r.users.length) : musicCapOK { r with users := us } :=
  le_trans hlen h

theorem musicCapOK_addUser {r : MusicRoom} (h : musicCapOK r)
    (hfull : musicFullRejected r = false) (sid : Nat) :
    musicCapOK { r with users := setAdd r.users sid } := by
  have hlt : r.users.length < r.maxUsers := by
    simp only [musicFullRejected, decide_eq_false_iff_not, Nat.not_le] at hfull
    exact hfull
  have hle := length_setAdd_le r.users sid
  show (setAdd r.users sid).length ≤ r.maxUsers
  omega

/-! ### State shape of the leave-previous-room blocks -/

theorem leavePrev_state (s : ServerState) (sid : Nat) (sess : Session) :
    ∃ rs, (leavePrev s sid sess).1 = { s with rooms := rs } := by
  unfold leavePrev
  split
  · cases halGet : alGet s.rooms sess.currentRoom with
    | some prev => exact ⟨_, rfl⟩
    | none => exact ⟨s.rooms, rfl⟩
  · exact ⟨s.rooms, rfl⟩

theorem leavePrev_musicRooms (s : ServerState) (sid : Nat) (sess : Session) :
    (leavePrev s sid sess).1.musicRooms = s.musicRooms := by
  obtain ⟨rs, hs⟩ := leavePrev_state s sid sess
  rw [hs]

theorem leavePrev_sessions (s : ServerState) (sid : Nat) (sess : Session) :
    (leavePrev s sid sess).1.sessions = s.sessions := by
  obtain ⟨rs, hs⟩ := leavePrev_state s sid sess
  rw [hs]

theorem leaveMusicPrev_state (s : ServerState) (sid : Nat) (sess : Session) :
    ∃ ms, (leaveMusicPrev s sid sess).1 = { s with musicRooms := ms } := by
  unfold leaveMusicPrev
  split
  · cases halGet : alGet s.musicRooms sess.currentMusicRoom with
    | some prev => exact ⟨_, rfl⟩
    | none => exact ⟨s.musicRooms, rfl⟩
  · exact ⟨s.musicRooms, rfl⟩

theorem leaveMusicPrev_rooms (s : ServerState) (sid : Nat) (sess : Session) :
    (leaveMusicPrev s sid sess).1.rooms = s.rooms := by
  obtain ⟨ms, hs⟩ := leaveMusicPrev_state s sid sess
  rw [hs]

theorem leaveMusicPrev_sessions (s : ServerState) (sid : Nat) (sess : Session) :
    (leaveMusicPrev s sid sess).1.sessions = s.sessions := by
  obtain ⟨ms, hs⟩ := leaveMusicPrev_state s sid sess
  rw [hs]

theorem capInv_leavePrev {s : ServerState} (h : capInv s) (sid : Nat) (sess : Session) :
    capInv (leavePrev s sid sess).1 := by
  unfold leavePrev
  split
  · cases halGet : alGet s.rooms sess.currentRoom with
    | some prev =>
      refine ⟨roomsOK_alSet h.1 ?_, h.2⟩
      exact roomCapOK_users (h.1 _ (alGet_mem halGet)) (length_setDel_le _ _)
    | none => exact h
  · exact h

theorem capInv_leaveMusicPrev {s : ServerState} (h : capInv s) (sid : Nat) (sess : Session) :
    capInv (leaveMusicPrev s sid sess).1 := by
  unfold leaveMusicPrev
  split
  · cases halGet : alGet s.musicRooms sess.currentMusicRoom with
    | some prev =>
      refine ⟨h.1, musicOK_alSet h.2 ?_⟩
      exact musicCapOK_users (h.2 _ (alGet_mem halGet)) (length_setDel_le _ _)
    | none => exact h
  · exact h

/-- After the leave-previous block, the target room is still present, with
the same fields except possibly one fewer occupant. -/
theorem leavePrev_lookup {s : ServerState} {n : String} {room : ChatRoom}
    (hroom : alGet s.rooms n = some room) (sid : Nat) (sess : Session) :
    ∃ room1, alGet (leavePrev s sid sess).1.rooms n = some room1 ∧
      room1.users.length ≤ room.users.length ∧
      room1.maxUsers = room.maxUsers ∧ room1.password = room.password ∧
      room1.messages = room.messages ∧ room1.creator = room.creator := by
  unfold leavePrev
  split
  · cases halGet : alGet s.rooms sess.currentRoom with
    | some prev =>
      by_cases hcur : sess.currentRoom = n
      · subst hcur
        rw [halGet] at hroom
        injection hroom with hroom
        subst hroom
        refine ⟨{ prev with users := setDel prev.users sid }, ?_, ?_, rfl, rfl, rfl, rfl⟩
        · exact alGet_alSet_self ..
        · exact length_setDel_le _ _
      · refine ⟨room, ?_, le_refl _, rfl, rfl, rfl, rfl⟩
        show alGet (alSet s.rooms sess.currentRoom _) n = some room
        rw [alGet_alSet_ne _ _ _ _ hcur]
        exact hroom
    | none => exact ⟨room, hroom, le_refl _, rfl, rfl, rfl, rfl⟩
  · exact ⟨room, hroom, le_refl _, rfl, rfl, rfl, rfl⟩

theorem leaveMusicPrev_lookup {s : ServerState} {n : String} {room : MusicRoom}
    (hroom : alGet s.musicRooms n = some room) (sid : Nat) (sess : Session) :
    ∃ room1, alGet (leaveMusicPrev s sid sess).1.musicRooms n = some room1 ∧
      room1.users.length ≤ room.users.length ∧
      room1.maxUsers = room.maxUsers ∧ room1.playlist = room.playlist ∧
      room1.messages = room.messages ∧ room1.currentTrack = room.currentTrack ∧
      room1.isPlaying = room.isPlaying := by
  unfold leaveMusicPrev
  split
  · cases halGet : alGet s.musicRooms sess.currentMusicRoom with
    | some prev =>
      by_cases hcur : sess.currentMusicRoom = n
      · subst hcur
        rw [halGet] at hroom
        injection hroom with hroom
        subst hroom
        refine ⟨{ prev with users := setDel prev.users sid }, ?_, ?_, rfl, rfl, rfl, rfl, rfl⟩
        · exact alGet_alSet_self ..
        · exact length_setDel_le _ _
      · refine ⟨room, ?_, le_refl _, rfl, rfl, rfl, rfl, rfl⟩
        show alGet (alSet s.musicRooms sess.currentMusicRoom _) n = some room
        rw [alGet_alSet_ne _ _ _ _ hcur]
        exact hroom
    | none => exact ⟨room, hroom, le_refl _, rfl, rfl, rfl, rfl, rfl⟩
  · exact ⟨room, hroom, le_refl _, rfl, rfl, rfl, rfl, rfl⟩

/-! ### Branch characterisations of the handlers -/

theorem joinRoomH_notFound (s : ServerState) (sid : Nat) (n : String) (pw : Option String)
    (h : alGet s.rooms n = none) :
    joinRoomH s sid n pw = (s, [.roomJoinError sid .roomNotFound]) := by
  simp [joinRoomH, h]

theorem joinRoomH_wrongPw (s : ServerState) (sid : Nat) (n : String) (pw : Option String)
    (room : ChatRoom) (h : alGet s.rooms n = some room)
    (hpw : pwRejected room (getSession s sid).currentUser pw = true) :
    joinRoomH s sid n pw = (s, [.roomJoinError sid .wrongPassword]) := by
  simp [joinRoomH, h, hpw]

theorem joinRoomH_full (s : ServerState) (sid : Nat) (n : String) (pw : Option String)
    (room : ChatRoom) (h : alGet s.rooms n = some room)
    (hpw : pwRejected room (getSession s sid).currentUser pw = false)
    (hfull : fullRejected room = true) :
    joinRoomH s sid n pw = (s, [.roomJoinError sid .roomFull]) := by
  simp [joinRoomH, h, hpw, hfull]

theorem joinRoomH_success (s : ServerState) (sid : Nat) (n : String) (pw : Option String)
    (room room1 : ChatRoom) (h : alGet s.rooms n = some room)
    (hpw : pwRejected room (getSession s sid).currentUser pw = false)
    (hfull : fullRejected room = false)
    (h1 : alGet (leavePrev s sid (getSession s sid)).1.rooms n = some room1) :
    joinRoomH s sid n pw =
      ({ (leavePrev s sid (getSession s sid)).1 with
         rooms := alSet (leavePrev s sid (getSession s sid)).1.rooms n { room1 with users := setAdd room1.users sid },
         sessions := alSet (leavePrev s sid (getSession s sid)).1.sessions sid { getSession s sid with currentRoom := n } },
       (leavePrev s sid (getSession s sid)).2 ++
         [OutEvent.roomJoinSuccess sid n (setAdd room1.users sid).length room1.maxUsers,
          OutEvent.userJoinedRoom n sid (getSession s sid).currentUser (setAdd room1.users sid).length,
          OutEvent.roomUserCount sid (setAdd room1.users sid).length room1.maxUsers] ++
         room1.messages.map (fun m => OutEvent.chatMessageReplay sid { m with isPrevious := true })) := by
  simp [joinRoomH, h, hpw, hfull, h1]

theorem leaveRoomH_member (s : ServerState) (sid : Nat) (n : String) (room : ChatRoom)
    (h : alGet s.rooms n = some room) (hmem : sid ∈ room.users) :
    leaveRoomH s sid n =
      ({ s with
         rooms := alSet s.rooms n { room with users := setDel room.users sid },
         sessions := alSet s.sessions sid { getSession s sid with currentRoom := "" } },
       [OutEvent.userLeftRoom n sid (getSession s sid).currentUser (setDel room.users sid).length]) := by
  simp [leaveRoomH, h, hmem]

theorem leaveRoomH_notFound (s : ServerState) (sid : Nat) (n : String)
    (h : alGet s.rooms n = none) :
    leaveRoomH s sid n =
      ({ s with sessions := alSet s.sessions sid { getSession s sid with currentRoom := "" } }, []) := by
  simp [leaveRoomH, h]

theorem leaveRoomH_notMember (s : ServerState) (sid : Nat) (n : String) (room : ChatRoom)
    (h : alGet s.rooms n = some room) (hmem : sid ∉ room.users) :
    leaveRoomH s sid n =
      ({ s with sessions := alSet s.sessions sid { getSession s sid with currentRoom := "" } }, []) := by
  simp [leaveRoomH, h, hmem]

theorem chatMessageH_notFound (s : ServerState) (sid : Nat) (n msg : String)
    (fd : Option FileData) (now fresh : Nat) (h : alGet s.rooms n = none) :
    chatMessageH s sid n msg fd now fresh = (s, []) := by
  simp [chatMessageH, h]

theorem chatMessageH_notMember (s : ServerState) (sid : Nat) (n msg : String)
    (fd : Option FileData) (now fresh : Nat) (room : ChatRoom)
    (h : alGet s.rooms n = some room) (hmem : sid ∉ room.users) :
    chatMessageH s sid n msg fd now fresh = (s, []) := by
  simp [chatMessageH, h, hmem]

theorem chatMessageH_member (s : ServerState) (sid : Nat) (n msg : String)
    (fd : Option FileData) (now fresh : Nat) (room : ChatRoom)
    (h : alGet s.rooms n = some room) (hmem : sid ∈ room.users) :
    chatMessageH s sid n msg fd now fresh =
      ({ s with rooms := alSet s.rooms n { room with messages := pushTrim room.messages ⟨fresh, (getSession s sid).currentUser, msg, fd, now, false⟩ } },
       [OutEvent.chatMessageLive n ⟨fresh, (getSession s sid).currentUser, msg, fd, now, false⟩]) := by
  simp [chatMessageH, h, hmem]

theorem deleteMessageH_noRoom (s : ServerState) (sid : Nat) (n : String) (mid : Nat)
    (h : alGet s.rooms n = none) :
    deleteMessageH s sid n mid = (s, [.deleteError sid .notAuthorized]) := by
  simp [deleteMessageH, h]

theorem deleteMessageH_notMember (s : ServerState) (sid : Nat) (n : String) (mid : Nat)
    (room : ChatRoom) (h : alGet s.rooms n = some room) (hmem : sid ∉ room.users) :
    deleteMessageH s sid n mid = (s, [.deleteError sid .notAuthorized]) := by
  simp [deleteMessageH, h, hmem]

theorem deleteMessageH_noMsg (s : ServerState) (sid : Nat) (n : String) (mid : Nat)
    (room : ChatRoom) (h : alGet s.rooms n = some room) (hmem : sid ∈ room.users)
    (hfind : room.messages.find? (fun m => m.id == mid) = none) :
    deleteMessageH s sid n mid = (s, [.deleteError sid .messageNotFound]) := by
  simp [deleteMessageH, h, hmem, hfind]

theorem deleteMessageH_notAuthor (s : ServerState) (sid : Nat) (n : String) (mid : Nat)
    (room : ChatRoom) (m : ChatMessage) (h : alGet s.rooms n = some room)
    (hmem : sid ∈ room.users)
    (hfind : room.messages.find? (fun x => x.id == mid) = some m)
    (hauth : m.username ≠ (getSession s sid).currentUser) :
    deleteMessageH s sid n mid = (s, [.deleteError sid .notAuthor]) := by
  simp [deleteMessageH, h, hmem, hfind, hauth]

theorem deleteMessageH_success (s : ServerState) (sid : Nat) (n : String) (mid : Nat)
    (room : ChatRoom) (m : ChatMessage) (h : alGet s.rooms n = some room)
    (hmem : sid ∈ room.users)
    (hfind : room.messages.find? (fun x => x.id == mid) = some m)
    (hauth : m.username = (getSession s sid).currentUser) :
    deleteMessageH s sid n mid =
      ({ s with rooms := alSet s.rooms n { room with messages := room.messages.eraseP (fun x => x.id == mid) } },
       [OutEvent.messageDeleted n mid, OutEvent.deleteSuccess sid mid]) := by
  simp [deleteMessageH, h, hmem, hfind, hauth]

theorem playTrackH_found (s : ServerState) (sid : Nat) (rid : String) (tid now : Nat)
    (room : MusicRoom) (track : MusicTrack) (h : alGet s.musicRooms rid = some room)
    (hmem : sid ∈ room.users)
    (hfind : room.playlist.find? (fun t => t.id == tid) = some track) :
    playTrackH s sid rid tid now =
      ({ s with musicRooms := alSet s.musicRooms rid { room with currentTrack := some track, isPlaying := true, playStartTime := some now } },
       [OutEvent.trackChanged rid track now]) := by
  simp [playTrackH, h, hmem, hfind]

theorem togglePlaybackH_member (s : ServerState) (sid : Nat) (rid : String) (now : Nat)
    (room : MusicRoom) (h : alGet s.musicRooms rid = some room) (hmem : sid ∈ room.users) :
    togglePlaybackH s sid rid now =
      ({ s with musicRooms := alSet s.musicRooms rid { room with isPlaying := !room.isPlaying, playStartTime := if !room.isPlaying then some now else room.playStartTime } },
       [OutEvent.playbackToggled rid (!room.isPlaying) (if !room.isPlaying then some now else room.playStartTime)]) := by
  simp [togglePlaybackH, h, hmem]

theorem joinMusicRoomH_notFound (s : ServerState) (sid : Nat) (rid : String)
    (h : alGet s.musicRooms rid = none) :
    joinMusicRoomH s sid rid = (s, [.musicRoomJoinError sid .roomNotFound]) := by
  simp [joinMusicRoomH, h]

theorem joinMusicRoomH_full (s : ServerState) (sid : Nat) (rid : String) (room : MusicRoom)
    (h : alGet s.musicRooms rid = some room) (hfull : musicFullRejected room = true) :
    joinMusicRoomH s sid rid = (s, [.musicRoomJoinError sid .roomFull]) := by
  simp [joinMusicRoomH, h, hfull]

theorem joinMusicRoomH_success (s : ServerState) (sid : Nat) (rid : String)
    (room room1 : MusicRoom) (h : alGet s.musicRooms rid = some room)
    (hfull : musicFullRejected room = false)
    (h1 : alGet (leaveMusicPrev s sid (getSession s sid)).1.musicRooms rid = some room1) :
    joinMusicRoomH s sid rid =
      ({ (leaveMusicPrev s sid (getSession s sid)).1 with
         musicRooms := alSet (leaveMusicPrev s sid (getSession s sid)).1.musicRooms rid { room1 with users := setAdd room1.users sid },
         sessions := alSet (leaveMusicPrev s sid (getSession s sid)).1.sessions sid { getSession s sid with currentMusicRoom := rid } },
       (leaveMusicPrev s sid (getSession s sid)).2 ++
         [OutEvent.musicRoomJoinSuccess sid rid (setAdd room1.users sid).length room1.playlist room1.currentTrack room1.isPlaying,
          OutEvent.musicRoomUserJoined rid sid (getSession s sid).currentUser (setAdd room1.users sid).length] ++
         room1.messages.map (fun m => OutEvent.musicChatReplay sid { m with isPrevious := true })) := by
  simp [joinMusicRoomH, h, hfull, h1]

theorem leaveMusicRoomH_member (s : ServerState) (sid : Nat) (rid : String)
    (room : MusicRoom) (h : alGet s.musicRooms rid = some room) (hmem : sid ∈ room.users) :
    leaveMusicRoomH s sid rid =
      ({ s with
         musicRooms := alSet s.musicRooms rid { room with users := setDel room.users sid },
         sessions := alSet s.sessions sid { getSession s sid with currentMusicRoom := "" } },
       [OutEvent.musicRoomUserLeft rid sid (getSession s sid).currentUser (setDel room.users sid).length]) := by
  simp [leaveMusicRoomH, h, hmem]

theorem leaveMusicRoomH_notFound (s : ServerState) (sid : Nat) (rid : String)
    (h : alGet s.musicRooms rid = none) :
    leaveMusicRoomH s sid rid =
      ({ s with sessions := alSet s.sessions sid { getSession s sid with currentMusicRoom := "" } }, []) := by
  simp [leaveMusicRoomH, h]

theorem leaveMusicRoomH_notMember (s : ServerState) (sid : Nat) (rid : String)
    (room : MusicRoom) (h : alGet s.musicRooms rid = some room) (hmem : sid ∉ room.users) :
    leaveMusicRoomH s sid rid =
      ({ s with sessions := alSet s.sessions sid { getSession s sid with currentMusicRoom := "" } }, []) := by
  simp [leaveMusicRoomH, h, hmem]

/-! ### The capacity invariant is preserved by every event -/

theorem capInv_connectH {s : ServerState} (h : capInv s) (sid : Nat) :
    capInv (connectH s sid).1 :=
  capInv_of_parts rfl rfl h

theorem capInv_userJoinH {s : ServerState} (h : capInv s) (sid : Nat) (u : String) :
    capInv (userJoinH s sid u).1 :=
  capInv_of_parts rfl rfl h

theorem capInv_createRoomH {s : ServerState} (h : capInv s) (sid : Nat) (n : String)
    (mu : Option Nat) (pw : Option String) (now : Nat) :
    capInv (createRoomH s sid n mu pw now).1 := by
  unfold createRoomH
  cases halGet : alGet s.rooms n with
  | none =>
    refine ⟨roomsOK_alSet h.1 ?_, h.2⟩
    refine ⟨jsOrNullStr_ne_empty pw, jsOrNullNat_ne_zero mu, ?_⟩
    intro m hm
    show ([] : List Nat).length ≤ m
    simp
  | some r => exact h

theorem capInv_joinRoomH {s : ServerState} (h : capInv s) (sid : Nat) (n : String)
    (pw : Option String) : capInv (joinRoomH s sid n pw).1 := by
  cases hroom : alGet s.rooms n with
  | none =>
    rw [joinRoomH_notFound s sid n pw hroom]
    exact h
  | some room =>
    cases hpw : pwRejected room (getSession s sid).currentUser pw with
    | true =>
      rw [joinRoomH_wrongPw s sid n pw room hroom hpw]
      exact h
    | false =>
      cases hfull : fullRejected room with
      | true =>
        rw [joinRoomH_full s sid n pw room hroom hpw hfull]
        exact h
      | false =>
        obtain ⟨room1, h1, hlen, hmu, hpw1, hmsg, hcr⟩ :=
          leavePrev_lookup hroom sid (getSession s sid)
        rw [joinRoomH_success s sid n pw room room1 hroom hpw hfull h1]
        have hInvLv := capInv_leavePrev h sid (getSession s sid)
        refine ⟨roomsOK_alSet hInvLv.1 ?_, ?_⟩
        · have hOK1 : roomCapOK room1 := hInvLv.1 _ (alGet_mem h1)
          refine ⟨hOK1.1, hOK1.2.1, ?_⟩
          intro m hm
          have hm1 : room1.maxUsers = some m := hm
          have hmne : m ≠ 0 := fun h0 => hOK1.2.1 (h0 ▸ hm1)
          have hmr : room.maxUsers = some m := hmu ▸ hm1
          have hlt := fullRejected_false_lt hfull hmr hmne
          have hplus := length_setAdd_le room1.users sid
          show (setAdd room1.users sid).length ≤ m
          omega
        · intro q hq
          exact hInvLv.2 q hq

theorem capInv_leaveRoomH {s : ServerState} (h : capInv s) (sid : Nat) (n : String) :
    capInv (leaveRoomH s sid n).1 := by
  cases hroom : alGet s.rooms n with
  | none =>
    rw [leaveRoomH_notFound s sid n hroom]
    exact capInv_of_parts rfl rfl h
  | some room =>
    by_cases hmem : sid ∈ room.users
    · rw [leaveRoomH_member s sid n room hroom hmem]
      refine ⟨roomsOK_alSet h.1 ?_, h.2⟩
      exact roomCapOK_users (h.1 _ (alGet_mem hroom)) (length_setDel_le _ _)
    · rw [leaveRoomH_notMember s sid n room hroom hmem]
      exact capInv_of_parts rfl rfl h

theorem capInv_chatMessageH {s : ServerState} (h : capInv s) (sid : Nat) (n msg : String)
    (fd : Option FileData) (now fresh : Nat) :
    capInv (chatMessageH s sid n msg fd now fresh).1 := by
  cases hroom : alGet s.rooms n with
  | none =>
    rw [chatMessageH_notFound s sid n msg fd now fresh hroom]
    exact h
  | some room =>
    by_cases hmem : sid ∈ room.users
    · rw [chatMessageH_member s sid n msg fd now fresh room hroom hmem]
      refine ⟨roomsOK_alSet h.1 ?_, h.2⟩
      exact roomCapOK_messages (h.1 _ (alGet_mem hroom)) _
    · rw [chatMessageH_notMember s sid n msg fd now fresh room hroom hmem]
      exact h

theorem capInv_deleteMessageH {s : ServerState} (h : capInv s) (sid : Nat) (n : String)
    (mid : Nat) : capInv (deleteMessageH s sid n mid).1 := by
  cases hroom : alGet s.rooms n with
  | none =>
    rw [deleteMessageH_noRoom s sid n mid hroom]
    exact h
  | some room =>
    by_cases hmem : sid ∈ room.users
    · cases hfind : room.messages.find? (fun m => m.id == mid) with
      | none =>
        rw [deleteMessageH_noMsg s sid n mid room hroom hmem hfind]
        exact h
      | some m =>
        by_cases hauth : m.username = (getSession s sid).currentUser
        · rw [deleteMessageH_success s sid n mid room m hroom hmem hfind hauth]
          refine ⟨roomsOK_alSet h.1 ?_, h.2⟩
          exact roomCapOK_messages (h.1 _ (alGet_mem hroom)) _
        · rw [deleteMessageH_notAuthor s sid n mid room m hroom hmem hfind hauth]
          exact h
    · rw [deleteMessageH_notMember s sid n mid room hroom hmem]
      exact h

theorem capInv_createMusicRoomH {s : ServerState} (h : capInv s) (sid : Nat) (n : String)
    (d : Option String) (mu : Option Nat) (g : Option (List String)) (now : Nat) :
    capInv (createMusicRoomH s sid n d mu g now).1 := by
  simp only [createMusicRoomH]
  cases halGet : alGet s.musicRooms (n ++ "-" ++ toString now) with
  | none =>
    refine ⟨h.1, musicOK_alSet h.2 ?_⟩
    show ([] : List Nat).length ≤ jsOrNat mu 10
    simp
  | some r => exact h

theorem capInv_joinMusicRoomH {s : ServerState} (h : capInv s) (sid : Nat) (rid : String) :
    capInv (joinMusicRoomH s sid rid).1 := by
  cases hroom : alGet s.musicRooms rid with
  | none =>
    rw [joinMusicRoomH_notFound s sid rid hroom]
    exact h
  | some room =>
    cases hfull : musicFullRejected room with
    | true =>
      rw [joinMusicRoomH_full s sid rid room hroom hfull]
      exact h
    | false =>
      obtain ⟨room1, h1, hlen, hmu, hpl, hmsg, hct, hip⟩ :=
        leaveMusicPrev_lookup hroom sid (getSession s sid)
      rw [joinMusicRoomH_success s sid rid room room1 hroom hfull h1]
      have hInvLv := capInv_leaveMusicPrev h sid (getSession s sid)
      refine ⟨?_, musicOK_alSet hInvLv.2 ?_⟩
      · intro q hq
        exact hInvLv.1 q hq
      · have hOK1 : musicCapOK room1 := hInvLv.2 _ (alGet_mem h1)
        have hltfull : room.users.length < room.maxUsers := by
          simp only [musicFullRejected, decide_eq_false_iff_not, Nat.not_le] at hfull
          exact hfull
        have hplus := length_setAdd_le room1.users sid
        show (setAdd room1.users sid).length ≤ room1.maxUsers
        rw [hmu]
        omega

theorem capInv_leaveMusicRoomH {s : ServerState} (h : capInv s) (sid : Nat) (rid : String) :
    capInv (leaveMusicRoomH s sid rid).1 := by
  cases hroom : alGet s.musicRooms rid with
  | none =>
    rw [leaveMusicRoomH_notFound s sid rid hroom]
    exact capInv_of_parts rfl rfl h
  | some room =>
    by_cases hmem : sid ∈ room.users
    · rw [leaveMusicRoomH_member s sid rid room hroom hmem]
      refine ⟨h.1, musicOK_alSet h.2 ?_⟩
      exact musicCapOK_users (h.2 _ (alGet_mem hroom)) (length_setDel_le _ _)
    · rw [leaveMusicRoomH_notMember s sid rid room hroom hmem]
      exact capInv_of_parts rfl rfl h

theorem capInv_musicUploadedH {s : ServerState} (h : capInv s) (sid : Nat) (rid : String)
    (md : MusicUpload) (now fresh : Nat) :
    capInv (musicUploadedH s sid rid md now fresh).1 := by
  unfold musicUploadedH
  cases halGet : alGet s.musicRooms rid with
  | none => exact h
  | some room =>
    by_cases hmem : sid ∈ room.users
    · simp only [if_pos hmem]
      refine ⟨h.1, musicOK_alSet h.2 ?_⟩
      exact h.2 _ (alGet_mem halGet)
    · simp only [if_neg hmem]
      exact h

theorem capInv_playTrackH {s : ServerState} (h : capInv s) (sid : Nat) (rid : String)
    (tid now : Nat) : capInv (playTrackH s sid rid tid now).1 := by
  unfold playTrackH
  cases halGet : alGet s.musicRooms rid with
  | none => exact h
  | some room =>
    by_cases hmem : sid ∈ room.users
    · simp only [if_pos hmem]
      cases hfind : room.playlist.find? (fun t => t.id == tid) with
      | none => exact h
      | some track =>
        refine ⟨h.1, musicOK_alSet h.2 ?_⟩
        exact h.2 _ (alGet_mem halGet)
    · simp only [if_neg hmem]
      exact h

theorem capInv_togglePlaybackH {s : ServerState} (h : capInv s) (sid : Nat) (rid : String)
    (now : Nat) : capInv (togglePlaybackH s sid rid now).1 := by
  unfold togglePlaybackH
  cases halGet : alGet s.musicRooms rid with
  | none => exact h
  | some room =>
    by_cases hmem : sid ∈ room.users
    · simp only [if_pos hmem]
      refine ⟨h.1, musicOK_alSet h.2 ?_⟩
      exact h.2 _ (alGet_mem halGet)
    · simp only [if_neg hmem]
      exact h

theorem capInv_disconnectH {s : ServerState} (h : capInv s) (sid : Nat) :
    capInv (disconnectH s sid).1 :=
  capInv_of_parts rfl rfl (capInv_leaveMusicPrev (capInv_leavePrev h sid _) sid _)

theorem capInv_step {s : ServerState} (h : capInv s) (e : Event) : capInv (step s e).1 := by
  cases e with
  | connect sid => exact capInv_connectH h sid
  | userJoin sid u => exact capInv_userJoinH h sid u
  | createRoom sid n mu pw now => exact capInv_createRoomH h sid n mu pw now
  | joinRoom sid n pw => exact capInv_joinRoomH h sid n pw
  | leaveRoom sid n => exact capInv_leaveRoomH h sid n
  | chatMessage sid n msg fd now fresh => exact capInv_chatMessageH h sid n msg fd now fresh
  | deleteMessage sid n mid => exact capInv_deleteMessageH h sid n mid
  | createMusicRoom sid n d mu g now => exact capInv_createMusicRoomH h sid n d mu g now
  | joinMusicRoom sid rid => exact capInv_joinMusicRoomH h sid rid
  | leaveMusicRoom sid rid => exact capInv_leaveMusicRoomH h sid rid
  | musicUploaded sid rid md now fresh => exact capInv_musicUploadedH h sid rid md now fresh
  | playTrack sid rid tid now => exact capInv_playTrackH h sid rid tid now
  | togglePlayback sid rid now => exact capInv_togglePlaybackH h sid rid now
  | disconnect sid => exact capInv_disconnectH h sid

theorem capInv_run (es : List Event) : ∀ s : ServerState, capInv s → capInv (run s es) := by
  induction es with
  | nil =>
    intro s h
    exact h
  | cons e t ih =>
    intro s h
    exact ih _ (capInv_step h e)

theorem capInv_initState : capInv initState :=
  ⟨fun q hq => absurd hq (List.not_mem_nil q), fun q hq => absurd hq (List.not_mem_nil q)⟩

/-! ### Runs made of `chat message` events -/

/-- One `chat message` input: text, optional attachment, the `Date.now()`
instant and the generated message id. -/
abbrev SendInput : Type := String × Option FileData × Nat × Nat

def sendEv (sid : Nat) (n : String) (i : SendInput) : Event :=
  Event.chatMessage sid n i.1 i.2.1 i.2.2.1 i.2.2.2

/-- The stored message a `chat message` input becomes for sender name `u`. -/
def mkMsg (u : String) (i : SendInput) : ChatMessage :=
  ⟨i.2.2.2, u, i.1, i.2.1, i.2.2.1, false⟩

theorem run_sends (sid : Nat) (n : String) (inputs : List SendInput) :
    ∀ (s : ServerState) (room : ChatRoom),
      alGet s.rooms n = some room → sid ∈ room.users →
      alGet (run s (inputs.map (sendEv sid n))).rooms n =
        some { room with messages := List.foldl pushTrim room.messages (inputs.map (mkMsg (getSession s sid).currentUser)) } ∧
      (run s (inputs.map (sendEv sid n))).sessions = s.sessions := by
  induction inputs with
  | nil =>
    intro s room hroom hmem
    refine ⟨?_, rfl⟩
    simpa using hroom
  | cons i t ih =>
    intro s room hroom hmem
    have hstep : (step s (sendEv sid n i)).1 =
        { s with rooms := alSet s.rooms n { room with messages := pushTrim room.messages (mkMsg (getSession s sid).currentUser i) } } := by
      show (chatMessageH s sid n i.1 i.2.1 i.2.2.1 i.2.2.2).1 = _
      rw [chatMessageH_member s sid n i.1 i.2.1 i.2.2.1 i.2.2.2 room hroom hmem]
      rfl
    have h1 : alGet (step s (sendEv sid n i)).1.rooms n =
        some { room with messages := pushTrim room.messages (mkMsg (getSession s sid).currentUser i) } := by
      rw [hstep]
      exact alGet_alSet_self ..
    have hmem1 : sid ∈ ({ room with messages := pushTrim room.messages (mkMsg (getSession s sid).currentUser i) } : ChatRoom).users := hmem
    have hsess : (step s (sendEv sid n i)).1.sessions = s.sessions := by
      rw [hstep]
    obtain ⟨ha, hb⟩ := ih (step s (sendEv sid n i)).1 _ h1 hmem1
    constructor
    · show alGet (run (step s (sendEv sid n i)).1 (t.map (sendEv sid n))).rooms n = _
      rw [ha, getSession_congr hsess sid]
      rfl
    · show (run (step s (sendEv sid n i)).1 (t.map (sendEv sid n))).sessions = s.sessions
      rw [hb, hsess]

theorem length_rtake_le {α : Type} (n : Nat) (l : List α) : (l.rtake n).length ≤ n := by
  simp only [List.rtake, List.length_drop]
  omega

/-! ### `find?` / `eraseP` splitting lemmas -/

theorem find?_split {α : Type} (p : α → Bool) (l₁ l₂ : List α) (m : α)
    (h₁ : ∀ x ∈ l₁, p x = false) (hm : p m = true) :
    (l₁ ++ m :: l₂).find? p = some m := by
  induction l₁ with
  | nil => simp [List.find?_cons_of_pos _ hm]
  | cons a t ih =>
    have ha : p a = false := h₁ a (List.mem_cons_self a t)
    rw [List.cons_append, List.find?_cons_of_neg _ (by simp [ha])]
    exact ih (fun x hx => h₁ x (List.mem_cons_of_mem a hx))

theorem eraseP_split {α : Type} (p : α → Bool) (l₁ l₂ : List α) (m : α)
    (h₁ : ∀ x ∈ l₁, p x = false) (hm : p m = true) :
    (l₁ ++ m :: l₂).eraseP p = l₁ ++ l₂ := by
  rw [List.eraseP_append_right _ (fun b hb => by simp [h₁ b hb])]
  rw [List.eraseP_cons_of_pos hm]

theorem find?_none_of_all {α : Type} (p : α → Bool) (l : List α)
    (h : ∀ x ∈ l, p x = false) : l.find? p = none :=
  List.find?_eq_none.mpr (fun x hx => by simp [h x hx])

/-! ### The password and capacity guards in the spec's vocabulary -/

theorem pwRejected_true_of (room : ChatRoom) (u : String) (pw : Option String) (p : String)
    (hp : room.password = some p) (hpne : p ≠ "")
    (hcr : room.creator ≠ u) (hpw : pw = none ∨ pw ≠ some p) :
    pwRejected room u pw = true := by
  unfold pwRejected jsStr
  rw [hp]
  cases pw with
  | none => simp [hpne, hcr]
  | some q =>
    by_cases hq : q = ""
    · subst hq
      simp [hpne, hcr]
    · rcases hpw with h0 | h0
      · exact absurd h0 (by simp)
      · have hqp : q ≠ p := fun he => h0 (by rw [he])
        simp [hpne, hcr, hq, hqp]

theorem pwRejected_false_of (room : ChatRoom) (u : String) (pw : Option String)
    (h : room.creator = u ∨ room.password = none ∨ pw = room.password) :
    pwRejected room u pw = false := by
  unfold pwRejected
  rcases h with h | h | h
  · simp [h]
  · rw [h]
    simp [jsStr]
  · rw [h]
    cases hj : jsStr room.password <;> simp [hj]

theorem fullRejected_true_of (room : ChatRoom) (m : Nat) (hm : room.maxUsers = some m)
    (hne : m ≠ 0) (hle : m ≤ room.users.length) : fullRejected room = true := by
  simp [fullRejected, jsNum, hm, hne, hle]

/-! ### Output shapes of the leave-previous blocks -/

theorem leavePrev_out (s : ServerState) (sid : Nat) (sess : Session) :
    (leavePrev s sid sess).2 = [] ∨
    ∃ rn ex u c, (leavePrev s sid sess).2 = [OutEvent.userLeftRoom rn ex u c] := by
  unfold leavePrev
  split
  · cases halGet : alGet s.rooms sess.currentRoom with
    | some prev => exact Or.inr ⟨_, _, _, _, rfl⟩
    | none => exact Or.inl rfl
  · exact Or.inl rfl

theorem leaveMusicPrev_out (s : ServerState) (sid : Nat) (sess : Session) :
    (leaveMusicPrev s sid sess).2 = [] ∨
    ∃ rn ex u c, (leaveMusicPrev s sid sess).2 = [OutEvent.musicRoomUserLeft rn ex u c] := by
  unfold leaveMusicPrev
  split
  · cases halGet : alGet s.musicRooms sess.currentMusicRoom with
    | some prev => exact Or.inr ⟨_, _, _, _, rfl⟩
    | none => exact Or.inl rfl
  · exact Or.inl rfl

/-! ### Claims -/

/-- C1: a `join room` request is rejected — with a structured rejection sent
only to the requester and no state changed — exactly when the room does not
exist (`RoomNotFound`); or the room has a password, the requester's display
name is not the creator's, and the supplied password is absent or different
(`WrongPassword`); or `maxUsers` is set and occupancy already reached it
(`RoomFull`); the checks apply in that order, and otherwise the join
succeeds. -/
theorem joinRoom_error_cases (s : ServerState) (sid : Nat) (n : String) (pw : Option String) :
    (alGet s.rooms n = none →
      joinRoomH s sid n pw = (s, [.roomJoinError sid .roomNotFound])) ∧
    (∀ room p, alGet s.rooms n = some room → room.password = some p → p ≠ "" →
      room.creator ≠ (getSession s sid).currentUser → (pw = none ∨ pw ≠ some p) →
      joinRoomH s sid n pw = (s, [.roomJoinError sid .wrongPassword])) ∧
    (∀ room m, alGet s.rooms n = some room →
      (room.creator = (getSession s sid).currentUser ∨ room.password = none ∨ pw = room.password) →
      room.maxUsers = some m → m ≠ 0 → m ≤ room.users.length →
      joinRoomH s sid n pw = (s, [.roomJoinError sid .roomFull])) ∧
    (∀ room, alGet s.rooms n = some room →
      pwRejected room (getSession s sid).currentUser pw = false →
      fullRejected room = false →
      (∃ room', alGet (joinRoomH s sid n pw).1.rooms n = some room' ∧ sid ∈ room'.users) ∧
      (∃ c mu, OutEvent.roomJoinSuccess sid n c mu ∈ (joinRoomH s sid n pw).2) ∧
      (∀ sid' err, OutEvent.roomJoinError sid' err ∉ (joinRoomH s sid n pw).2)) := by
  refine ⟨?_, ?_, ?_, ?_⟩
  · intro h
    exact joinRoomH_notFound s sid n pw h
  · intro room p hroom hp hpne hcr hpw
    exact joinRoomH_wrongPw s sid n pw room hroom
      (pwRejected_true_of room _ pw p hp hpne hcr hpw)
  · intro room m hroom hok hm hmne hle
    exact joinRoomH_full s sid n pw room hroom (pwRejected_false_of room _ pw hok)
      (fullRejected_true_of room m hm hmne hle)
  · intro room hroom hpw hfull
    obtain ⟨room1, h1, hlen, hmu, hpw1, hmsg, hcr⟩ := leavePrev_lookup hroom sid (getSession s sid)
    rw [joinRoomH_success s sid n pw room room1 hroom hpw hfull h1]
    refine ⟨⟨{ room1 with users := setAdd room1.users sid }, ?_, ?_⟩, ?_, ?_⟩
    · exact alGet_alSet_self ..
    · exact mem_setAdd_self room1.users sid
    · refine ⟨(setAdd room1.users sid).length, room1.maxUsers, ?_⟩
      simp
    · intro sid' err hmem
      rcases List.mem_append.mp hmem with hmem' | hmem'
      · rcases List.mem_append.mp hmem' with hmem'' | hmem''
        · rcases leavePrev_out s sid (getSession s sid) with h0 | ⟨rn, ex, u, c, h0⟩ <;>
            rw [h0] at hmem'' <;> simp at hmem''
        · simp at hmem''
      · simp at hmem'

/-- A concrete run exercising every branch of the `join room` checks:
`alice` creates a password-protected one-seat room and an open room, and
occupies the former. -/
def c1trace : List Event :=
  [Event.connect 1, Event.userJoin 1 "alice", Event.connect 2, Event.userJoin 2 "bob",
   Event.createRoom 1 "priv" (some 1) (some "pw") 0,
   Event.createRoom 1 "open" none none 1,
   Event.joinRoom 1 "priv" none]

def c1s : ServerState := run initState c1trace

theorem joinRoom_error_cases_witness :
    joinRoomH c1s 2 "nope" none = (c1s, [.roomJoinError 2 .roomNotFound]) ∧
    joinRoomH c1s 2 "priv" none = (c1s, [.roomJoinError 2 .wrongPassword]) ∧
    joinRoomH c1s 2 "priv" (some "pw") = (c1s, [.roomJoinError 2 .roomFull]) ∧
    ((∃ room', alGet (joinRoomH c1s 2 "open" none).1.rooms "open" = some room' ∧ 2 ∈ room'.users) ∧
     (∃ c mu, OutEvent.roomJoinSuccess 2 "open" c mu ∈ (joinRoomH c1s 2 "open" none).2) ∧
     (∀ sid' err, OutEvent.roomJoinError sid' err ∉ (joinRoomH c1s 2 "open" none).2)) := by
  refine ⟨(joinRoom_error_cases c1s 2 "nope" none).1 (by decide),
    (joinRoom_error_cases c1s 2 "priv" none).2.1 ⟨"priv", [1], [], some 1, some "pw", "alice", 0⟩
      "pw" (by decide) (by decide) (by decide) (by decide) (Or.inl rfl),
    (joinRoom_error_cases c1s 2 "priv" (some "pw")).2.2.1
      ⟨"priv", [1], [], some 1, some "pw", "alice", 0⟩ 1 (by decide)
      (Or.inr (Or.inr (by decide))) (by decide) (by decide) (by decide),
    (joinRoom_error_cases c1s 2 "open" none).2.2.2 ⟨"open", [], [], none, none, "alice", 1⟩
      (by decide) (by decide) (by decide)⟩

/-- Is `sid` stored in the occupant set of chat room `n`? -/
def chatOccupant (s : ServerState) (n : String) (sid : Nat) : Bool :=
  match alGet s.rooms n with
  | some room => decide (sid ∈ room.users)
  | none => false

/-- The interleaving that breaks single-occupancy: connection 1 joins room
`A`, handles `leave room` for the unrelated name `B` (which clears its
current-room reference while leaving it inside `A`), then joins room `C`. -/
def c2trace : List Event :=
  [Event.connect 1, Event.userJoin 1 "u",
   Event.createRoom 1 "A" none none 0,
   Event.createRoom 1 "C" none none 1,
   Event.joinRoom 1 "A" none,
   Event.leaveRoom 1 "B",
   Event.joinRoom 1 "C" none]

/-- C2 (refuted — the code violates the claimed invariant): after the
reachable event sequence `c2trace`, connection 1 is simultaneously a member
of the occupant sets of the two distinct chat rooms `A` and `C`, so a
connection id can occupy two chat rooms at once. -/
theorem join_after_foreign_leave_double_occupancy :
    chatOccupant (run initState c2trace) "A" 1 = true ∧
    chatOccupant (run initState c2trace) "C" 1 = true := by
  constructor
  · decide
  · decide

/-- C3: after any event sequence from the empty initial state, every chat
room with `maxUsers` set and every music room respects its occupancy bound;
a join arriving at (or beyond) capacity is rejected with `RoomFull` leaving
the state unchanged — for chat rooms, provided the password check passed
first. -/
theorem capacity_never_exceeded :
    (∀ es : List Event, capInv (run initState es)) ∧
    (∀ (s : ServerState) (sid : Nat) (n : String) (pw : Option String) (room : ChatRoom)
       (m : Nat), alGet s.rooms n = some room →
       pwRejected room (getSession s sid).currentUser pw = false →
       room.maxUsers = some m → m ≠ 0 → m ≤ room.users.length →
       joinRoomH s sid n pw = (s, [.roomJoinError sid .roomFull])) ∧
    (∀ (s : ServerState) (sid : Nat) (rid : String) (room : MusicRoom),
       alGet s.musicRooms rid = some room → room.maxUsers ≤ room.users.length →
       joinMusicRoomH s sid rid = (s, [.musicRoomJoinError sid .roomFull])) := by
  refine ⟨?_, ?_, ?_⟩
  · intro es
    exact capInv_run es initState capInv_initState
  · intro s sid n pw room m hroom hpw hm hmne hle
    exact joinRoomH_full s sid n pw room hroom hpw (fullRejected_true_of room m hm hmne hle)
  · intro s sid rid room hroom hle
    refine joinMusicRoomH_full s sid rid room hroom ?_
    simp [musicFullRejected, hle]

/-- The §8 scenario: room `lobby` with `maxUsers = 2`, occupied by
connections 1 and 2; plus a one-seat music room occupied by connection 1. -/
def c3trace : List Event :=
  [Event.connect 1, Event.userJoin 1 "x", Event.connect 2, Event.userJoin 2 "y",
   Event.connect 3, Event.userJoin 3 "z",
   Event.createRoom 1 "lobby" (some 2) none 0,
   Event.joinRoom 1 "lobby" none, Event.joinRoom 2 "lobby" none,
   Event.createMusicRoom 1 "jam" none (some 1) none 5,
   Event.joinMusicRoom 1 "jam-5"]

def c3s : ServerState := run initState c3trace

theorem capacity_never_exceeded_witness :
    capInv (run initState c3trace) ∧
    joinRoomH c3s 3 "lobby" none = (c3s, [.roomJoinError 3 .roomFull]) ∧
    joinMusicRoomH c3s 3 "jam-5" = (c3s, [.musicRoomJoinError 3 .roomFull]) := by
  refine ⟨capacity_never_exceeded.1 c3trace,
    capacity_never_exceeded.2.1 c3s 3 "lobby" none ⟨"lobby", [1, 2], [], some 2, none, "x", 0⟩ 2
      (by decide) (by decide) (by decide) (by decide) (by decide),
    capacity_never_exceeded.2.2 c3s 3 "jam-5"
      ⟨"jam-5", "jam", "Collaborative music workspace", [1], 1, "x",
        ["Electronic", "Hip-Hop", "Rock"], [], none, 0, false, none, [], 5⟩
      (by decide) (by decide)⟩

/-- C4: starting from a room with empty history, after any sequence of
accepted `chat message` sends by an occupant, the room's history is exactly
the most recent (at most 100) sent messages in send order — the last-100
suffix of the full send sequence — and its length never exceeds 100. -/
theorem chat_history_last100 (s : ServerState) (sid : Nat) (n : String) (room : ChatRoom)
    (inputs : List SendInput) (hroom : alGet s.rooms n = some room)
    (hmem : sid ∈ room.users) (hempty : room.messages = []) :
    ∃ room', alGet (run s (inputs.map (sendEv sid n))).rooms n = some room' ∧
      room'.messages = (inputs.map (mkMsg (getSession s sid).currentUser)).rtake 100 ∧
      room'.messages.length ≤ 100 := by
  obtain ⟨ha, _⟩ := run_sends sid n inputs s room hroom hmem
  have hmsgs : List.foldl pushTrim room.messages
      (inputs.map (mkMsg (getSession s sid).currentUser)) =
      (inputs.map (mkMsg (getSession s sid).currentUser)).rtake 100 := by
    rw [hempty, foldl_pushTrim_rtake _ [] (by simp)]
    simp
  refine ⟨_, ha, hmsgs, ?_⟩
  rw [hmsgs]
  exact length_rtake_le 100 _

/-- Connection 1 alone in room `r`, history empty. -/
def c4trace : List Event :=
  [Event.connect 1, Event.userJoin 1 "u",
   Event.createRoom 1 "r" none none 0, Event.joinRoom 1 "r" none]

def c4s : ServerState := run initState c4trace

def c4inputs : List SendInput := [("hi", none, 5, 101), ("there", none, 6, 102)]

theorem chat_history_last100_witness :
    ∃ room', alGet (run c4s (c4inputs.map (sendEv 1 "r"))).rooms "r" = some room' ∧
      room'.messages = (c4inputs.map (mkMsg (getSession c4s 1).currentUser)).rtake 100 ∧
      room'.messages.length ≤ 100 :=
  chat_history_last100 c4s 1 "r" ⟨"r", [1], [], none, none, "u", 0⟩ c4inputs
    (by decide) (by decide) (by decide)

/-- C5: `delete message` fails with `NotAuthorized` when the requester is
not a current occupant (including when the room does not exist); otherwise
with `MessageNotFound` when no stored message carries the requested id;
otherwise with `NotAuthor` when every message carrying the id has an author
name different from the requester's display name; each failure is a single
private rejection and leaves the state (hence the history) unchanged. -/
theorem deleteMessage_error_cases (s : ServerState) (sid : Nat) (n : String) (mid : Nat) :
    (alGet s.rooms n = none →
      deleteMessageH s sid n mid = (s, [.deleteError sid .notAuthorized])) ∧
    (∀ room, alGet s.rooms n = some room → sid ∉ room.users →
      deleteMessageH s sid n mid = (s, [.deleteError sid .notAuthorized])) ∧
    (∀ room, alGet s.rooms n = some room → sid ∈ room.users →
      (∀ x ∈ room.messages, x.id ≠ mid) →
      deleteMessageH s sid n mid = (s, [.deleteError sid .messageNotFound])) ∧
    (∀ room, alGet s.rooms n = some room → sid ∈ room.users →
      (∃ x ∈ room.messages, x.id = mid) →
      (∀ x ∈ room.messages, x.id = mid → x.username ≠ (getSession s sid).currentUser) →
      deleteMessageH s sid n mid = (s, [.deleteError sid .notAuthor])) := by
  refine ⟨deleteMessageH_noRoom s sid n mid, ?_, ?_, ?_⟩
  · intro room hroom hmem
    exact deleteMessageH_notMember s sid n mid room hroom hmem
  · intro room hroom hmem hnone
    refine deleteMessageH_noMsg s sid n mid room hroom hmem ?_
    exact find?_none_of_all _ _ (fun x hx => by simp [hnone x hx])
  · intro room hroom hmem hex hall
    obtain ⟨x, hx, hxid⟩ := hex
    cases hfind : room.messages.find? (fun y => y.id == mid) with
    | none =>
      exfalso
      rw [List.find?_eq_none] at hfind
      exact hfind x hx (by simp [hxid])
    | some m =>
      have hmmem := List.mem_of_find?_eq_some hfind
      have hmid : m.id = mid := by
        have hp := List.find?_some hfind
        simpa using hp
      exact deleteMessageH_notAuthor s sid n mid room m hroom hmem hfind (hall m hmmem hmid)

/-- Connections 1 and 2 in room `r` (display names `u`, `v`), connection 3
outside it; one message by `u` with id 101. -/
def c5trace : List Event :=
  [Event.connect 1, Event.userJoin 1 "u", Event.connect 2, Event.userJoin 2 "v",
   Event.connect 3, Event.userJoin 3 "w",
   Event.createRoom 1 "r" none none 0,
   Event.joinRoom 1 "r" none, Event.joinRoom 2 "r" none,
   Event.chatMessage 1 "r" "hello" none 5 101]

def c5s : ServerState := run initState c5trace

def c5room : ChatRoom :=
  ⟨"r", [1, 2], [⟨101, "u", "hello", none, 5, false⟩], none, none, "u", 0⟩

theorem deleteMessage_error_cases_witness :
    deleteMessageH c5s 1 "nope" 101 = (c5s, [.deleteError 1 .notAuthorized]) ∧
    deleteMessageH c5s 3 "r" 101 = (c5s, [.deleteError 3 .notAuthorized]) ∧
    deleteMessageH c5s 1 "r" 999 = (c5s, [.deleteError 1 .messageNotFound]) ∧
    deleteMessageH c5s 2 "r" 101 = (c5s, [.deleteError 2 .notAuthor]) := by
  refine ⟨(deleteMessage_error_cases c5s 1 "nope" 101).1 (by decide),
    (deleteMessage_error_cases c5s 3 "r" 101).2.1 c5room (by decide) (by decide),
    (deleteMessage_error_cases c5s 1 "r" 999).2.2.1 c5room (by decide) (by decide) (by decide),
    (deleteMessage_error_cases c5s 2 "r" 101).2.2.2 c5room (by decide) (by decide)
      ⟨⟨101, "u", "hello", none, 5, false⟩, by decide, rfl⟩ (by decide)⟩

/-- C6: when the history splits as `l₁ ++ m :: l₂` with `m` the unique
message carrying the requested id and the requester its author, the delete
succeeds, the history becomes exactly `l₁ ++ l₂` (only `m` removed), and a
second delete of the same id fails with `MessageNotFound`. -/
theorem deleteMessage_exact (s : ServerState) (sid : Nat) (n : String) (mid : Nat)
    (room : ChatRoom) (m : ChatMessage) (l₁ l₂ : List ChatMessage)
    (hroom : alGet s.rooms n = some room) (hmem : sid ∈ room.users)
    (hsplit : room.messages = l₁ ++ m :: l₂)
    (h₁ : ∀ x ∈ l₁, x.id ≠ mid) (h₂ : ∀ x ∈ l₂, x.id ≠ mid) (hmid : m.id = mid)
    (hauth : m.username = (getSession s sid).currentUser) :
    ∃ s', deleteMessageH s sid n mid =
        (s', [OutEvent.messageDeleted n mid, OutEvent.deleteSuccess sid mid]) ∧
      alGet s'.rooms n = some { room with messages := l₁ ++ l₂ } ∧
      deleteMessageH s' sid n mid = (s', [.deleteError sid .messageNotFound]) := by
  have hfind : room.messages.find? (fun x => x.id == mid) = some m := by
    rw [hsplit]
    exact find?_split _ l₁ l₂ m (fun x hx => by simp [h₁ x hx]) (by simp [hmid])
  have herase : room.messages.eraseP (fun x => x.id == mid) = l₁ ++ l₂ := by
    rw [hsplit]
    exact eraseP_split _ l₁ l₂ m (fun x hx => by simp [h₁ x hx]) (by simp [hmid])
  rw [deleteMessageH_success s sid n mid room m hroom hmem hfind hauth, herase]
  refine ⟨_, rfl, ?_, ?_⟩
  · exact alGet_alSet_self ..
  · have hroom' : alGet ({ s with rooms := alSet s.rooms n { room with messages := l₁ ++ l₂ } } : ServerState).rooms n =
        some { room with messages := l₁ ++ l₂ } := alGet_alSet_self ..
    have hmem' : sid ∈ ({ room with messages := l₁ ++ l₂ } : ChatRoom).users := hmem
    refine deleteMessageH_noMsg _ sid n mid _ hroom' hmem' ?_
    refine find?_none_of_all _ _ (fun x hx => ?_)
    rcases List.mem_append.mp hx with hx' | hx'
    · simp [h₁ x hx']
    · simp [h₂ x hx']

/-- Connection 1 in room `r` with two of its own messages, ids 101 and 102. -/
def c6trace : List Event :=
  [Event.connect 1, Event.userJoin 1 "u",
   Event.createRoom 1 "r" none none 0, Event.joinRoom 1 "r" none,
   Event.chatMessage 1 "r" "one" none 5 101,
   Event.chatMessage 1 "r" "two" none 6 102]

def c6s : ServerState := run initState c6trace

def c6room : ChatRoom :=
  ⟨"r", [1], [⟨101, "u", "one", none, 5, false⟩, ⟨102, "u", "two", none, 6, false⟩],
   none, none, "u", 0⟩

theorem deleteMessage_exact_witness :
    ∃ s', deleteMessageH c6s 1 "r" 101 =
        (s', [OutEvent.messageDeleted "r" 101, OutEvent.deleteSuccess 1 101]) ∧
      alGet s'.rooms "r" = some { c6room with messages := [] ++ [⟨102, "u", "two", none, 6, false⟩] } ∧
      deleteMessageH s' 1 "r" 101 = (s', [.deleteError 1 .messageNotFound]) :=
  deleteMessage_exact c6s 1 "r" 101 c6room ⟨101, "u", "one", none, 5, false⟩
    [] [⟨102, "u", "two", none, 6, false⟩]
    (by decide) (by decide) (by decide) (by decide) (by decide) (by decide) (by decide)

/-- C7: a `chat message` whose sender is not a current occupant of the named
room — including when the room does not exist — is silently dropped: the
state is returned unchanged and the emitted event list is empty (no error,
no append, no broadcast). -/
theorem chatMessage_silent_drop (s : ServerState) (sid : Nat) (n msg : String)
    (fd : Option FileData) (now fresh : Nat) :
    (alGet s.rooms n = none → chatMessageH s sid n msg fd now fresh = (s, [])) ∧
    (∀ room, alGet s.rooms n = some room → sid ∉ room.users →
      chatMessageH s sid n msg fd now fresh = (s, [])) :=
  ⟨chatMessageH_notFound s sid n msg fd now fresh,
   fun room h hmem => chatMessageH_notMember s sid n msg fd now fresh room h hmem⟩

/-- Connection 1 in room `r`; connection 2 connected but not an occupant. -/
def c7trace : List Event :=
  [Event.connect 1, Event.userJoin 1 "u", Event.connect 2, Event.userJoin 2 "v",
   Event.createRoom 1 "r" none none 0, Event.joinRoom 1 "r" none]

def c7s : ServerState := run initState c7trace

theorem chatMessage_silent_drop_witness :
    chatMessageH c7s 2 "nope" "x" none 5 101 = (c7s, []) ∧
    chatMessageH c7s 2 "r" "x" none 5 101 = (c7s, []) :=
  ⟨(chatMessage_silent_drop c7s 2 "nope" "x" none 5 101).1 (by decide),
   (chatMessage_silent_drop c7s 2 "r" "x" none 5 101).2 ⟨"r", [1], [], none, none, "u", 0⟩
     (by decide) (by decide)⟩

/-- Connection 1 occupying room `A`. -/
def c8trace : List Event :=
  [Event.connect 1, Event.userJoin 1 "u",
   Event.createRoom 1 "A" none none 0, Event.joinRoom 1 "A" none]

def c8s : ServerState := run initState c8trace

/-- C8 counterexample: handling `leave room` for the non-existent room `B`
while connection 1 occupies room `A` produces no broadcast, yet the server
state does change — the session's current-room reference is cleared — so the
operation is not a complete no-op as claimed. -/
theorem leaveRoom_changes_state :
    (leaveRoomH c8s 1 "B").2 = [] ∧ (leaveRoomH c8s 1 "B").1 ≠ c8s := by
  constructor
  · decide
  · decide

/-- C8 (amended): a `leave room` for a room the connection does not occupy
(or that does not exist) raises no error, broadcasts nothing and leaves
every room untouched, but unconditionally clears the connection's
current-chat-room reference. -/
theorem leaveRoom_noop_amended (s : ServerState) (sid : Nat) (n : String)
    (h : alGet s.rooms n = none ∨ ∃ room, alGet s.rooms n = some room ∧ sid ∉ room.users) :
    leaveRoomH s sid n =
      ({ s with sessions := alSet s.sessions sid { getSession s sid with currentRoom := "" } },
       []) := by
  rcases h with h | ⟨room, h, hmem⟩
  · exact leaveRoomH_notFound s sid n h
  · exact leaveRoomH_notMember s sid n room h hmem

theorem leaveRoom_noop_amended_witness :
    leaveRoomH c8s 1 "B" =
      ({ c8s with sessions := alSet c8s.sessions 1 { getSession c8s 1 with currentRoom := "" } },
       []) :=
  leaveRoom_noop_amended c8s 1 "B" (Or.inl (by decide))

/-- C9: for an occupant of a music room, `toggle playback` flips `isPlaying`
and re-stamps `playStartTime` with the current instant exactly when the flip
is to playing, broadcasting the new transport state to the whole room; in
the play–pause–resume scenario the pause keeps the original stamp `t1` and
the resume stamps `t3`, which is strictly greater than `t1` whenever the
clock advanced between the two stamps. -/
theorem togglePlayback_restamp (s : ServerState) (sid : Nat) (rid : String)
    (room : MusicRoom) (now tid t1 t2 t3 : Nat) (track : MusicTrack)
    (hroom : alGet s.musicRooms rid = some room) (hmem : sid ∈ room.users)
    (hfind : room.playlist.find? (fun t => t.id == tid) = some track)
    (hlt : t1 < t3) :
    togglePlaybackH s sid rid now =
      ({ s with musicRooms := alSet s.musicRooms rid { room with isPlaying := !room.isPlaying, playStartTime := if !room.isPlaying then some now else room.playStartTime } },
       [.playbackToggled rid (!room.isPlaying) (if !room.isPlaying then some now else room.playStartTime)]) ∧
    (∃ room1 room2 room3,
      alGet (playTrackH s sid rid tid t1).1.musicRooms rid = some room1 ∧
      room1.isPlaying = true ∧ room1.playStartTime = some t1 ∧
      alGet (togglePlaybackH (playTrackH s sid rid tid t1).1 sid rid t2).1.musicRooms rid = some room2 ∧
      room2.isPlaying = false ∧ room2.playStartTime = some t1 ∧
      alGet (togglePlaybackH (togglePlaybackH (playTrackH s sid rid tid t1).1 sid rid t2).1 sid rid t3).1.musicRooms rid = some room3 ∧
      room3.isPlaying = true ∧ room3.playStartTime = some t3 ∧ t1 < t3 ∧
      (togglePlaybackH (togglePlaybackH (playTrackH s sid rid tid t1).1 sid rid t2).1 sid rid t3).2 = [.playbackToggled rid true (some t3)]) := by
  constructor
  · exact togglePlaybackH_member s sid rid now room hroom hmem
  · have e1 := playTrackH_found s sid rid tid t1 room track hroom hmem hfind
    have h1 : alGet (playTrackH s sid rid tid t1).1.musicRooms rid =
        some { room with currentTrack := some track, isPlaying := true, playStartTime := some t1 } := by
      rw [e1]
      exact alGet_alSet_self ..
    have hm1 : sid ∈ ({ room with currentTrack := some track, isPlaying := true, playStartTime := some t1 } : MusicRoom).users := hmem
    have e2 : togglePlaybackH (playTrackH s sid rid tid t1).1 sid rid t2 =
        ({ (playTrackH s sid rid tid t1).1 with musicRooms := alSet (playTrackH s sid rid tid t1).1.musicRooms rid { room with currentTrack := some track, isPlaying := false, playStartTime := some t1 } },
         [.playbackToggled rid false (some t1)]) :=
      togglePlaybackH_member (playTrackH s sid rid tid t1).1 sid rid t2 _ h1 hm1
    have h2 : alGet (togglePlaybackH (playTrackH s sid rid tid t1).1 sid rid t2).1.musicRooms rid =
        some { room with currentTrack := some track, isPlaying := false, playStartTime := some t1 } := by
      rw [e2]
      exact alGet_alSet_self ..
    have hm2 : sid ∈ ({ room with currentTrack := some track, isPlaying := false, playStartTime := some t1 } : MusicRoom).users := hmem
    have e3 : togglePlaybackH (togglePlaybackH (playTrackH s sid rid tid t1).1 sid rid t2).1 sid rid t3 =
        ({ (togglePlaybackH (playTrackH s sid rid tid t1).1 sid rid t2).1 with musicRooms := alSet (togglePlaybackH (playTrackH s sid rid tid t1).1 sid rid t2).1.musicRooms rid { room with currentTrack := some track, isPlaying := true, playStartTime := some t3 } },
         [.playbackToggled rid true (some t3)]) :=
      togglePlaybackH_member (togglePlaybackH (playTrackH s sid rid tid t1).1 sid rid t2).1 sid rid t3 _ h2 hm2
    have h3 : alGet (togglePlaybackH (togglePlaybackH (playTrackH s sid rid tid t1).1 sid rid t2).1 sid rid t3).1.musicRooms rid =
        some { room with currentTrack := some track, isPlaying := true, playStartTime := some t3 } := by
      rw [e3]
      exact alGet_alSet_self ..
    refine ⟨_, _, _, h1, rfl, rfl, h2, rfl, rfl, h3, rfl, rfl, hlt, ?_⟩
    rw [e3]

/-- Connection 1 (`dj`) alone in a fresh music room with one uploaded
track (id 201). -/
def c9trace : List Event :=
  [Event.connect 1, Event.userJoin 1 "dj",
   Event.createMusicRoom 1 "jam" none none none 5,
   Event.joinMusicRoom 1 "jam-5",
   Event.musicUploaded 1 "jam-5" ⟨"f.mp3", "song.mp3", "/uploads/music/f.mp3"⟩ 6 201]

def c9s : ServerState := run initState c9trace

def c9track : MusicTrack :=
  ⟨201, "song", "f.mp3", "song.mp3", "/uploads/music/f.mp3", "dj", 6, "0:00", 0, []⟩

def c9room : MusicRoom :=
  ⟨"jam-5", "jam", "Collaborative music workspace", [1], 10, "dj",
   ["Electronic", "Hip-Hop", "Rock"], [c9track], none, 0, false, none,
   [⟨6, true, "jam-5", "SYSTEM", "dj uploaded \"song\"", 6, false⟩], 5⟩

theorem togglePlayback_restamp_witness :
    ∃ room1 room2 room3,
      alGet (playTrackH c9s 1 "jam-5" 201 10).1.musicRooms "jam-5" = some room1 ∧
      room1.isPlaying = true ∧ room1.playStartTime = some 10 ∧
      alGet (togglePlaybackH (playTrackH c9s 1 "jam-5" 201 10).1 1 "jam-5" 11).1.musicRooms "jam-5" = some room2 ∧
      room2.isPlaying = false ∧ room2.playStartTime = some 10 ∧
      alGet (togglePlaybackH (togglePlaybackH (playTrackH c9s 1 "jam-5" 201 10).1 1 "jam-5" 11).1 1 "jam-5" 12).1.musicRooms "jam-5" = some room3 ∧
      room3.isPlaying = true ∧ room3.playStartTime = some 12 ∧ 10 < 12 ∧
      (togglePlaybackH (togglePlaybackH (playTrackH c9s 1 "jam-5" 201 10).1 1 "jam-5" 11).1 1 "jam-5" 12).2 = [.playbackToggled "jam-5" true (some 12)] :=
  (togglePlayback_restamp c9s 1 "jam-5" c9room 7 201 10 11 12 c9track
    (by decide) (by decide) (by decide) (by decide)).2

/-- C10: `leave room` clears the session's current-chat-room reference even
for a room name the connection does not occupy: a connection occupying room
`a` that handles `leave room` for a different name `b` stays inside `a`'s
occupant set while its room reference becomes empty; its later disconnect
then removes it from no chat room and emits no `user left room`
notification, leaving the stale occupant id in `a` permanently. -/
theorem leaveRoom_stale_occupant (s : ServerState) (sid : Nat) (a b : String)
    (roomA : ChatRoom) (hcur : (getSession s sid).currentRoom = a)
    (hroomA : alGet s.rooms a = some roomA) (hmemA : sid ∈ roomA.users)
    (hne : b ≠ a)
    (hnotB : ∀ roomB, alGet s.rooms b = some roomB → sid ∉ roomB.users) :
    (leaveRoomH s sid b).1.rooms = s.rooms ∧ (leaveRoomH s sid b).2 = [] ∧
    (getSession (leaveRoomH s sid b).1 sid).currentRoom = "" ∧
    (disconnectH (leaveRoomH s sid b).1 sid).1.rooms = s.rooms ∧
    (∀ rn ex u c, OutEvent.userLeftRoom rn ex u c ∉ (disconnectH (leaveRoomH s sid b).1 sid).2) ∧
    alGet (disconnectH (leaveRoomH s sid b).1 sid).1.rooms a = some roomA ∧ sid ∈ roomA.users := by
  have e1 : leaveRoomH s sid b =
      ({ s with sessions := alSet s.sessions sid { getSession s sid with currentRoom := "" } },
       []) := by
    cases hgb : alGet s.rooms b with
    | none => exact leaveRoomH_notFound s sid b hgb
    | some roomB => exact leaveRoomH_notMember s sid b roomB hgb (hnotB roomB hgb)
  have hrooms1 : (leaveRoomH s sid b).1.rooms = s.rooms := by
    rw [e1]
  have hsess1 : getSession (leaveRoomH s sid b).1 sid =
      { getSession s sid with currentRoom := "" } := by
    rw [e1]
    show (alGet (alSet s.sessions sid _) sid).getD freshSession = _
    rw [alGet_alSet_self]
    rfl
  have hlp : leavePrev (leaveRoomH s sid b).1 sid (getSession (leaveRoomH s sid b).1 sid) =
      ((leaveRoomH s sid b).1, []) := by
    rw [hsess1]
    simp [leavePrev]
  have hd : disconnectH (leaveRoomH s sid b).1 sid =
      ({ (leaveMusicPrev (leaveRoomH s sid b).1 sid (getSession (leaveRoomH s sid b).1 sid)).1 with
         sessions := alDel (leaveMusicPrev (leaveRoomH s sid b).1 sid (getSession (leaveRoomH s sid b).1 sid)).1.sessions sid },
       [] ++ (leaveMusicPrev (leaveRoomH s sid b).1 sid (getSession (leaveRoomH s sid b).1 sid)).2) := by
    show ({ (leaveMusicPrev (leavePrev (leaveRoomH s sid b).1 sid (getSession (leaveRoomH s sid b).1 sid)).1 sid (getSession (leaveRoomH s sid b).1 sid)).1 with
         sessions := alDel (leaveMusicPrev (leavePrev (leaveRoomH s sid b).1 sid (getSession (leaveRoomH s sid b).1 sid)).1 sid (getSession (leaveRoomH s sid b).1 sid)).1.sessions sid },
       (leavePrev (leaveRoomH s sid b).1 sid (getSession (leaveRoomH s sid b).1 sid)).2 ++
         (leaveMusicPrev (leavePrev (leaveRoomH s sid b).1 sid (getSession (leaveRoomH s sid b).1 sid)).1 sid (getSession (leaveRoomH s sid b).1 sid)).2) = _
    rw [hlp]
  have hrooms2 : (disconnectH (leaveRoomH s sid b).1 sid).1.rooms = s.rooms := by
    rw [hd]
    show (leaveMusicPrev (leaveRoomH s sid b).1 sid _).1.rooms = s.rooms
    rw [leaveMusicPrev_rooms]
    exact hrooms1
  refine ⟨hrooms1, by rw [e1], by rw [hsess1], hrooms2, ?_, ?_, hmemA⟩
  · intro rn ex u c hmem
    rw [hd] at hmem
    rcases leaveMusicPrev_out (leaveRoomH s sid b).1 sid
        (getSession (leaveRoomH s sid b).1 sid) with h0 | ⟨rn', ex', u', c', h0⟩ <;>
      rw [h0] at hmem <;> simp at hmem
  · rw [hrooms2]
    exact hroomA

/-- Connection 1 occupying room `A`, then `leave room "B"` and disconnect. -/
def c10trace : List Event :=
  [Event.connect 1, Event.userJoin 1 "u",
   Event.createRoom 1 "A" none none 0, Event.joinRoom 1 "A" none]

def c10s : ServerState := run initState c10trace

theorem leaveRoom_stale_occupant_witness :
    (leaveRoomH c10s 1 "B").1.rooms = c10s.rooms ∧ (leaveRoomH c10s 1 "B").2 = [] ∧
    (getSession (leaveRoomH c10s 1 "B").1 1).currentRoom = "" ∧
    (disconnectH (leaveRoomH c10s 1 "B").1 1).1.rooms = c10s.rooms ∧
    (∀ rn ex u c, OutEvent.userLeftRoom rn ex u c ∉ (disconnectH (leaveRoomH c10s 1 "B").1 1).2) ∧
    alGet (disconnectH (leaveRoomH c10s 1 "B").1 1).1.rooms "A" = some ⟨"A", [1], [], none, none, "u", 0⟩ ∧
    1 ∈ (⟨"A", [1], [], none, none, "u", 0⟩ : ChatRoom).users :=
  leaveRoom_stale_occupant c10s 1 "A" "B" ⟨"A", [1], [], none, none, "u", 0⟩
    (by decide) (by decide) (by decide) (by decide)
    (fun roomB h => by simp [show alGet c10s.rooms "B" = none by decide] at h)
